import Mathlib

/-!
Verification development for the Jelly builder pipeline.

The definitions below are a shallow embedding of the orchestration core:
the sandboxed pytest runner (jelly/sandbox/runner.py), the test executor
with MCP step replay and quarantine (jelly/agents/test_executor.py), the
re-adaptation predicate of the orchestrator (jelly/orchestrator.py), the
capability gate (jelly/capability.py), the pregnancy delegation guards
(jelly/pregnancy.py), the sidecar manager's port allocation and launch
bookkeeping (jelly/mcp_sidecar_manager.py) and the output writer
(jelly/utils.py).

Python strings are modelled as lists of characters.  Effects that cross
the process boundary (the pytest subprocess, MCP transport calls, socket
binds, the LM) are modelled as explicit oracle inputs: the embedded
functions describe exactly how the Python code combines those outcomes.
Log emission and the informational mcp_summary dictionary are not
modelled; they do not feed back into any of the computations below.
-/

namespace Jelly

/-- Python strings are modelled as lists of characters. -/
abbrev Str := List Char

/-- Python str.lower, restricted to the ASCII mapping used by every string
the pipeline compares case-insensitively. -/
def lower (s : Str) : Str := s.map Char.toLower

/-- Python str.strip with no argument: drop leading and trailing whitespace. -/
def strip (s : Str) : Str :=
  ((s.dropWhile Char.isWhitespace).reverse.dropWhile Char.isWhitespace).reverse

/-- Python str.startswith on the character-list model. -/
def starts_with : Str → Str → Bool
  | _, [] => true
  | [], _ :: _ => false
  | c :: cs, d :: ds => c == d && starts_with cs ds

/-- Python substring containment (the binary in operator on strings). -/
def contains_sub (needle : Str) : Str → Bool
  | [] => needle.isEmpty
  | c :: cs => starts_with (c :: cs) needle || contains_sub needle cs

/-- Python str.split on a single separator character. -/
def split_on (sep : Char) : Str → List Str
  | [] => [[]]
  | c :: cs =>
    let rest := split_on sep cs
    if c = sep then [] :: rest
    else
      match rest with
      | [] => [[c]]
      | r :: rs => (c :: r) :: rs

/-- Python string comparison: lexicographic by code point. -/
def str_le : Str → Str → Bool
  | [], _ => true
  | _ :: _, [] => false
  | a :: as, b :: bs => if a = b then str_le as bs else decide (a < b)

/-- Insert into a sorted list of strings, keeping order. -/
def ordered_insert (x : Str) : List Str → List Str
  | [] => [x]
  | y :: ys => if str_le x y then x :: y :: ys else y :: ordered_insert x ys

/-- Python sorted on a list of strings.  str_le is a total, transitive and
antisymmetric comparison, so any correct sort computes the same list; an
insertion sort is used so results reduce in the kernel. -/
def sort_strs : List Str → List Str
  | [] => []
  | x :: xs => ordered_insert x (sort_strs xs)

/-- One failure record of a TestResult (jelly's failure_details entries). -/
structure Failure where
  test_name : Str
  error_type : Str
  error_message : Str
  traceback : Str
deriving DecidableEq, Repr

/-- The TestResult dictionary shape produced throughout the pipeline. -/
structure TestResult where
  all_passed : Bool
  total_tests : Nat
  passed : Nat
  failed : Nat
  failure_details : List Failure
deriving DecidableEq, Repr

/-- The count half of the spec's TestResult invariant. -/
def result_sum_ok (r : TestResult) : Prop := r.passed + r.failed = r.total_tests

/-- The flag half of the spec's TestResult invariant. -/
def result_flag_ok (r : TestResult) : Prop :=
  r.all_passed = (r.failed == 0 && decide (0 < r.total_tests))

instance (r : TestResult) : Decidable (result_sum_ok r) := by
  unfold result_sum_ok; infer_instance

instance (r : TestResult) : Decidable (result_flag_ok r) := by
  unfold result_flag_ok; infer_instance

/-! Sandbox runner, jelly/sandbox/runner.py. -/

/-- Python s[-n:] — the last n characters of a string. -/
def py_tail (n : Nat) (s : Str) : Str := s.drop (s.length - n)

/-- What the regex layer of the sandbox parser extracts from the pytest
stdout and stderr of one run: the three summary counts, the Failure records
built from FAILED and ERROR summary lines, the Failure records built from
the underscore-fenced traceback sections, and the stripped combined output
used for the final unparsed fallback.  The regex matching itself is the
oracle; the assembly of the result dictionary is embedded below. -/
structure PytestStdout where
  passed_count : Nat
  failed_count : Nat
  error_count : Nat
  matched_details : List Failure
  section_details : List Failure
  combined : Str
deriving Repr

/-- The single Failure synthesized when failures were counted but none were
parsed (test name literally "(unparsed)"). -/
def unparsed_failure (combined : Str) : Failure :=
  { test_name := ("(unparsed)".toList)
    error_type := ("Error".toList)
    error_message := py_tail 500 combined
    traceback := py_tail 1000 combined }

/-- The pure assembly step of the sandbox output parser: failed accumulates
errors, the failure-detail cascade falls back from summary-line matches to
traceback sections to a single unparsed record, total = passed + failed and
all_passed = (failed == 0 and total > 0). -/
def parse_pytest_output (o : PytestStdout) : TestResult :=
  let failed := o.failed_count + o.error_count
  let d1 := o.matched_details
  let d2 := if d1 = [] ∧ 0 < failed then o.section_details else d1
  let d3 := if d2 = [] ∧ 0 < failed then [unparsed_failure o.combined] else d2
  let total := o.passed_count + failed
  { all_passed := failed == 0 && decide (0 < total)
    total_tests := total
    passed := o.passed_count
    failed := failed
    failure_details := d3 }

/-- The timeout branch of run_tests: the message text is abstracted, the
shape — test name "(entire suite)", error type TimeoutError — is kept. -/
def timeout_failure : Failure :=
  { test_name := ("(entire suite)".toList)
    error_type := ("TimeoutError".toList)
    error_message := ("Exceeded timeout".toList)
    traceback := [] }

/-- The Failure appended when pytest exits non-zero with no parsed failures
(test name "(pytest execution)"). -/
def exec_failure (combined : Str) : Failure :=
  { test_name := ("(pytest execution)".toList)
    error_type := ("ExecutionError".toList)
    error_message := ("pytest exited non-zero".toList)
    traceback := py_tail 1000 combined }

/-- How one sandbox pytest subprocess ends: either the timeout fires, or the
process completes with a return code and output for the parser. -/
inductive PytestOutcome
  | timeout
  | completed (returncode : Int) (out : PytestStdout)

/-- run_tests of jelly/sandbox/runner.py after materialization: the timeout
branch returns the fixed single-TimeoutError result with total_tests 0; the
completed branch parses the output, and on a non-zero exit with zero parsed
failures forces failed to 1, raises total_tests to at least passed + failed
and appends the execution Failure, then forces all_passed to false. -/
def run_tests (outcome : PytestOutcome) : TestResult :=
  match outcome with
  | .timeout =>
      { all_passed := false
        total_tests := 0
        passed := 0
        failed := 1
        failure_details := [timeout_failure] }
  | .completed rc o =>
      let r := parse_pytest_output o
      let r1 :=
        if rc ≠ 0 ∧ r.failed = 0 then
          { r with
            failed := 1
            total_tests := max r.total_tests (r.passed + 1)
            failure_details := r.failure_details ++ [exec_failure o.combined] }
        else r
      if rc ≠ 0 then { r1 with all_passed := false } else r1

/-- Python filename.replace of backslashes by forward slashes. -/
def convert_slashes (s : Str) : Str := s.map (fun c => if c = '\\' then '/' else c)

/-- The component list of _safe_relative_path before the root strip: split
the slash-normalized name on slashes and drop the components pathlib and the
filter remove — empty strings, single dots and double dots.  (The source
filter also lists "/" and a lone backslash; neither can occur as a split
component once backslashes are converted.) -/
def filtered_parts (raw : Str) : List Str :=
  (split_on '/' raw).filter
    (fun p => !(p == ([] : Str) || p == (".".toList) || p == ("..".toList)))

/-- _safe_relative_path of jelly/sandbox/runner.py: normalize slashes, drop
unsafe components, strip one leading root_prefix component, and fall back to
a generated name when nothing remains. -/
def safe_relative_path (filename root_dir fallback : Str) : List Str :=
  let parts := filtered_parts (convert_slashes filename)
  let parts2 :=
    match parts with
    | [] => []
    | p :: rest => if p = root_dir then rest else p :: rest
  if parts2 = [] then [fallback] else parts2

/-- The per-index fallback name generated_src_N.py used for code files. -/
def fallback_src_name (idx : Nat) : Str :=
  ("generated_src_".toList) ++ (toString idx).toList ++ (".py".toList)

/-- Destination of one code FileSet entry under the sandbox: T/src followed
by the sanitized relative path. -/
def materialize_code_path (sandbox : List Str) (idx : Nat) (filename : Str) : List Str :=
  sandbox ++ [("src".toList)] ++ safe_relative_path filename ("src".toList) (fallback_src_name idx)

/-- Filesystem resolution of double-dot components, folding left to right
from an already-resolved accumulator (what the OS does when the sandbox or
output writer opens the path for writing). -/
def resolve_from (acc : List Str) : List Str → List Str
  | [] => acc
  | p :: rest =>
      if p = ("..".toList) then resolve_from acc.dropLast rest
      else resolve_from (acc ++ [p]) rest

/-! Capability gate, jelly/capability.py. -/

/-- One deterministic preflight check record. -/
structure PreflightCheck where
  name : Str
  ok : Bool
  severity : Str
  message : Str
deriving DecidableEq, Repr

/-- The parsed LM capability assessment (jelly/agents/capability_checker.py);
assessment_available is false exactly when no candidate JSON parsed, in which
case the checker returns the sentinel structure. -/
structure CapabilityAssessment where
  capable : Bool
  confidence : ℚ
  reasons : List Str
  missing_capabilities : List Str
  recommended_child_requirements : Str
  assessment_available : Bool
deriving DecidableEq, Repr

/-- The capability decision record. -/
structure CapabilityDecision where
  capable : Bool
  confidence : ℚ
  reasons : List Str
  missing_capabilities : List Str
  recommended_child_requirements : Str
  mcp_baseline_status : List (Str × Bool)
  preflight_checks : List PreflightCheck
  depth : Nat
deriving DecidableEq, Repr

/-- The bullet list of _default_child_requirements: at most eight reasons,
one dash bullet per line, or the unknown-gap bullet when empty. -/
def bullet_list (reasons : List Str) : Str :=
  if reasons = [] then ("- Unknown capability gap.".toList)
  else List.intercalate ("\n".toList) ((reasons.take 8).map (fun r => ("- ".toList) ++ r))

/-- _default_child_requirements: the synthesized child bootstrap document;
the fixed section headers are kept, the reasons are capped at eight, the
original requirements are appended stripped. -/
def default_child_requirements (requirements : Str) (reasons : List Str) : Str :=
  ("# Child Capability Bootstrap\n\n## Objective\n".toList)
    ++ ("Produce a working solution for the original requirements.\n\n".toList)
    ++ ("## Capability Gaps\n".toList) ++ bullet_list reasons
    ++ ("\n\n## Original Requirements\n".toList) ++ strip requirements ++ ("\n".toList)

/-- The hard checks appended when require_mcp_baseline is set: one per
baseline entry that reports unavailable. -/
def baseline_checks (mcp_baseline : List (Str × Bool)) : List PreflightCheck :=
  (mcp_baseline.filter (fun kv => !kv.2)).map
    (fun kv =>
      { name := ("mcp_".toList) ++ kv.1
        ok := false
        severity := ("hard".toList)
        message := kv.1 ++ (" MCP baseline unavailable".toList) })

/-- The reason appended when the decision is incapable purely because the
confidence fell below the threshold. -/
def below_threshold_reason : Str :=
  ("Capability confidence below threshold.".toList)

/-- The reason recorded when the LM assessment is unavailable and the gate
falls back to capable. -/
def fallback_reason : Str :=
  ("LLM capability assessment unavailable; falling back to deterministic preflight.".toList)

/-- assess_capability of jelly/capability.py.  The preflight probe results
and the parsed LM assessment are oracle inputs; the second component of the
result records whether the LM capability checker was invoked at all (the
hard-failure branch returns before constructing the checker). -/
def assess_capability (requirements : Str) (pre : List PreflightCheck)
    (mcp_baseline : List (Str × Bool)) (require_mcp_baseline : Bool)
    (threshold : ℚ) (llm : CapabilityAssessment) (depth : Nat) :
    CapabilityDecision × Bool :=
  let checks := pre ++ (if require_mcp_baseline then baseline_checks mcp_baseline else [])
  let hard_failures := checks.filter (fun c => !c.ok && c.severity == ("hard".toList))
  if hard_failures ≠ [] then
    let reasons := hard_failures.map (fun c => c.message)
    ({ capable := false
       confidence := 0
       reasons := reasons
       missing_capabilities := hard_failures.map (fun c => c.name)
       recommended_child_requirements := default_child_requirements requirements reasons
       mcp_baseline_status := mcp_baseline
       preflight_checks := checks
       depth := depth }, false)
  else
    let missing := llm.missing_capabilities
    let capable :=
      if llm.assessment_available then
        llm.capable && decide (threshold ≤ llm.confidence)
      else true
    let reasons :=
      if llm.assessment_available then
        if !(llm.capable && decide (threshold ≤ llm.confidence))
            && decide (llm.confidence < threshold) then
          llm.reasons ++ [below_threshold_reason]
        else llm.reasons
      else llm.reasons ++ [fallback_reason]
    let recommended :=
      if llm.recommended_child_requirements = [] ∧ capable = false then
        default_child_requirements requirements
          (if missing ≠ [] then missing else reasons)
      else llm.recommended_child_requirements
    ({ capable := capable
       confidence := llm.confidence
       reasons := reasons
       missing_capabilities := missing
       recommended_child_requirements := recommended
       mcp_baseline_status := mcp_baseline
       preflight_checks := checks
       depth := depth }, true)

/-! Pregnancy delegation, jelly/pregnancy.py. -/

/-- Join a list of strings with the pipe separator. -/
def join_bar (xs : List Str) : Str := List.intercalate ("|".toList) xs

/-- _capability_signature: sorted missing capabilities joined by pipes, else
the sorted reasons joined by pipes and truncated to 200 characters, else the
sentinel string. -/
def capability_signature (d : CapabilityDecision) : Str :=
  if d.missing_capabilities ≠ [] then join_bar (sort_strs d.missing_capabilities)
  else if d.reasons ≠ [] then (join_bar (sort_strs d.reasons)).take 200
  else ("unspecified_capability_gap".toList)

/-- The pregnancy result dictionary: the TestResult fields plus the
delegation annotations every branch attaches.  Branch-specific extra string
fields (child_workspace, output tails) are not modelled. -/
structure PregnancyResult where
  all_passed : Bool
  total_tests : Nat
  passed : Nat
  failed : Nat
  failure_details : List Failure
  delegated_to_child : Bool
  pregnancy_depth : Nat
  pregnancy_max_depth : Nat
deriving DecidableEq, Repr

/-- _failure_result of jelly/pregnancy.py: one synthetic failure named
pregnancy_delegation with the given error type, counted 1 failed of 1. -/
def pregnancy_failure_result (etype emsg : Str) (depth max_depth : Nat) : PregnancyResult :=
  { all_passed := false
    total_tests := 1
    passed := 0
    failed := 1
    failure_details :=
      [{ test_name := ("pregnancy_delegation".toList)
         error_type := etype
         error_message := emsg
         traceback := [] }]
    delegated_to_child := true
    pregnancy_depth := depth
    pregnancy_max_depth := max_depth }

/-- How the spawned child builder subprocess ends. -/
inductive ChildOutcome
  | timeout
  | exited (returncode : Int) (stdout_tail stderr_tail : Str)

/-- delegate_to_child_builder.  The guards (depth, repeated signature) run
before any workspace copy or subprocess spawn; the Bool component of the
result records whether the function got past both guards and performed the
child-side effects.  Failure messages are abstracted to their error types. -/
def delegate_to_child_builder (depth : Nat) (cfg_max_depth : Int)
    (decision : CapabilityDecision) (seen_signatures : List Str)
    (child : ChildOutcome) : PregnancyResult × Bool :=
  let max_depth := (max 0 cfg_max_depth).toNat
  let next_depth := depth + 1
  if next_depth > max_depth then
    (pregnancy_failure_result ("PregnancyDepthExceeded".toList)
      ("maximum depth reached".toList) depth max_depth, false)
  else
    let signature := capability_signature decision
    if signature ∈ seen_signatures then
      (pregnancy_failure_result ("RepeatedCapabilitySignature".toList)
        ("repeated capability signature detected".toList) depth max_depth, false)
    else
      match child with
      | .timeout =>
          (pregnancy_failure_result ("PregnancyTimeout".toList)
            ("child builder timed out".toList) depth max_depth, true)
      | .exited rc _ _ =>
          if rc ≠ 0 then
            (pregnancy_failure_result ("ChildBuilderFailed".toList)
              ("child builder exited non-zero".toList) depth max_depth, true)
          else
            ({ all_passed := true
               total_tests := 0
               passed := 0
               failed := 0
               failure_details := []
               delegated_to_child := true
               pregnancy_depth := depth
               pregnancy_max_depth := max_depth }, true)

/-! Test executor, jelly/agents/test_executor.py. -/

/-- The neutral result _empty_results returns: note the all_passed flag is
literally true while total_tests is 0. -/
def empty_results : TestResult :=
  { all_passed := true, total_tests := 0, passed := 0, failed := 0, failure_details := [] }

/-- An MCP server record; the fields the executor's control flow reads.
Command, args, env and the sidecar install fields do not influence the
embedded branches and are left out. -/
structure MCPServer where
  name : Str
  transport : Str
  endpoint : Option Str
  dynamic_sidecar : Bool
deriving DecidableEq, Repr

/-- One MCP test step. -/
structure MCPTestStep where
  description : Str
  server : Str
  tool : Str
  arguments : List (Str × Str)
  expected : Str
deriving DecidableEq, Repr

/-- An MCP test plan. -/
structure MCPTestPlan where
  servers : List MCPServer
  steps : List MCPTestStep
  reason : Str
deriving DecidableEq, Repr

/-- The canonical step key: _step_key serializes exactly the description,
server, tool and arguments fields as minified JSON with sorted keys, which
is injective in those four fields; the key is modelled as the quadruple. -/
structure StepKey where
  description : Str
  server : Str
  tool : Str
  arguments : List (Str × Str)
deriving DecidableEq, Repr

/-- _step_key as the quadruple it canonically serializes. -/
def step_key (s : MCPTestStep) : StepKey :=
  { description := s.description, server := s.server, tool := s.tool, arguments := s.arguments }

/-- can_lazy_provision of jelly/mcp.py: http_sse transport, flagged dynamic,
and a blank endpoint. -/
def can_lazy_provision (s : MCPServer) : Bool :=
  s.transport == ("http_sse".toList) && s.dynamic_sidecar
    && (strip (s.endpoint.getD [])).isEmpty

/-- The dict comprehension for servers_by_name keeps the last server with a
given name. -/
def lookup_server (servers : List MCPServer) (n : Str) : Option MCPServer :=
  servers.reverse.find? (fun s => s.name == n)

/-- Outcome of one start_server_for_transport attempt during the startup
phase (the handshake is the oracle). -/
structure StartupOutcome where
  ok : Bool
  etype : Str
  emsg : Str

/-- The server-preparation loop of run_mcp_tests: quarantined servers are
skipped, lazily provisionable servers are deferred when a manager exists,
every other server is started; a startup error is recorded per name and
does not abort the plan.  Returns the started names and the error map. -/
def startup_phase (q_servers : List Str) (has_manager : Bool)
    (outcome : Nat → StartupOutcome) :
    List MCPServer → Nat → List Str × List (Str × Str × Str)
  | [], _ => ([], [])
  | s :: rest, i =>
    let (procs, errs) := startup_phase q_servers has_manager outcome rest (i + 1)
    if s.name ∈ q_servers then (procs, errs)
    else if can_lazy_provision s && has_manager then (procs, errs)
    else if (outcome i).ok then (s.name :: procs, errs)
    else (procs, (s.name, (outcome i).etype, (outcome i).emsg) :: errs)

/-- Outcome of one call_tool_for_server invocation: the joined text of the
text-typed content items, or the raised exception. -/
inductive CallOutcome
  | ok (text : Str)
  | exc (etype emsg : Str)
deriving DecidableEq, Repr

/-- Outcome of one lazy ensure_running plus handshake. -/
inductive ProvisionOutcome
  | ok
  | exc (etype emsg : Str)
deriving DecidableEq, Repr

/-- The external outcomes one step of the loop can observe: the provisioning
attempt, the first tool call, and the one permitted retry call. -/
structure StepWorld where
  provision : ProvisionOutcome
  call1 : CallOutcome
  call2 : CallOutcome

/-- The environment one run of the step loop executes in. -/
structure MCPEnv where
  servers : List MCPServer
  has_manager : Bool
  startup_errors : List (Str × Str × Str)
  world : Nat → StepWorld

/-- The executor state the step loop threads: the two per-instance
quarantine sets plus the per-call bookkeeping and counters. -/
structure ExecState where
  q_steps : List StepKey
  q_servers : List Str
  procs : List Str
  dynamic_provisioned : List Str
  dynamic_call_seen : List Str
  dynamic_reused : List Str
  dynamic_failed : List Str
  passed : Nat
  failed : Nat
  skipped_quarantined : Nat
  failure_details : List Failure
deriving DecidableEq, Repr

/-- How one step of the loop ended. -/
inductive StepVerdict
  | skipq
  | fail (etype emsg : Str)
  | ok
deriving DecidableEq, Repr

/-- Every failing path of the step loop: count the failure, append the
failure detail, and add both the step key and the step's server name to the
quarantine sets. -/
def record_failure (st : ExecState) (k : StepKey) (step : MCPTestStep)
    (etype emsg : Str) : ExecState :=
  { st with
    q_steps := k :: st.q_steps
    q_servers := step.server :: st.q_servers
    failed := st.failed + 1
    failure_details := st.failure_details ++
      [{ test_name := step.description, error_type := etype
         error_message := emsg, traceback := [] }] }

/-- The quarantine-skip result of the step loop: the step is counted both
as skipped and as passed, everything else is untouched. -/
def skip_bump (st : ExecState) : ExecState :=
  { st with skipped_quarantined := st.skipped_quarantined + 1, passed := st.passed + 1 }

/-- The success criterion: an empty expectation always passes, otherwise the
lower-cased expectation must be a substring of the lower-cased joined text. -/
def assert_text_ok (expected text : Str) : Bool :=
  expected.isEmpty || contains_sub (lower expected) (lower text)

/-- The tail of a successful tool call: mark the server's first call done,
then check the expectation; an assertion miss is a failing path. -/
def finish_call (st : ExecState) (k : StepKey) (step : MCPTestStep)
    (text : Str) (calls : Nat) : ExecState × Nat × StepVerdict :=
  let st1 := { st with dynamic_call_seen := step.server :: st.dynamic_call_seen }
  if assert_text_ok step.expected text then
    ({ st1 with passed := st1.passed + 1 }, calls, .ok)
  else
    (record_failure st1 k step ("AssertionError".toList)
      (("Expected text missing: ".toList) ++ text.take 300), calls, .fail ("AssertionError".toList) [])

/-- The tools/call part of one step: one invocation, with a single retry
permitted on the first exception only when the server was provisioned on
this very step and had not been called before.  The middle component counts
the tools/call invocations performed. -/
def exec_call_phase (w : StepWorld) (st : ExecState) (k : StepKey)
    (step : MCPTestStep) : ExecState × Nat × StepVerdict :=
  let just_provisioned :=
    step.server ∈ st.dynamic_provisioned ∧ step.server ∉ st.dynamic_call_seen
  let st := if step.server ∈ st.dynamic_call_seen ∧ step.server ∈ st.dynamic_provisioned
    then { st with dynamic_reused := step.server :: st.dynamic_reused } else st
  match w.call1 with
  | .ok text => finish_call st k step text 1
  | .exc et em =>
    if just_provisioned then
      match w.call2 with
      | .ok text => finish_call st k step text 2
      | .exc et2 em2 => (record_failure st k step et2 (em2.take 500), 2, .fail et2 em2)
    else (record_failure st k step et (em.take 500), 1, .fail et em)

/-- One iteration of the step loop of run_mcp_tests, in source order:
quarantined-server skip counted as passed, quarantined-key skip counted as
passed, unknown server failure, lazy provisioning (manager missing or
provisioning error fail the step), startup-error failure for servers that
never started, then the tool call with expectation check. -/
def process_step (env : MCPEnv) (st : ExecState) (i : Nat)
    (step : MCPTestStep) : ExecState × Nat × StepVerdict :=
  if step.server ∈ st.q_servers then
    (skip_bump st, 0, .skipq)
  else
    let k := step_key step
    if k ∈ st.q_steps then
      (skip_bump st, 0, .skipq)
    else
      match lookup_server env.servers step.server with
      | none =>
          (record_failure st k step ("ServerNotFound".toList)
            ("no configured server with this name".toList), 0,
            .fail ("ServerNotFound".toList) [])
      | some server =>
        if step.server ∉ st.procs ∧ can_lazy_provision server then
          if env.has_manager = false then
            ({ record_failure st k step ("DynamicSidecarManagerMissing".toList)
                ("cannot provision without manager context".toList) with
               dynamic_failed := step.server :: st.dynamic_failed }, 0,
              .fail ("DynamicSidecarManagerMissing".toList) [])
          else
            match (env.world i).provision with
            | .exc et em =>
                ({ record_failure st k step et (em.take 500) with
                   dynamic_failed := step.server :: st.dynamic_failed }, 0, .fail et em)
            | .ok =>
                exec_call_phase (env.world i)
                  { st with
                    procs := step.server :: st.procs
                    dynamic_provisioned := step.server :: st.dynamic_provisioned }
                  k step
        else if step.server ∉ st.procs then
          match (env.startup_errors.map (fun e => (e.1, e.2))).lookup step.server with
          | some (et, em) =>
              (record_failure st k step et (em.take 500), 0, .fail et em)
          | none =>
              (record_failure st k step ("ServerNotFound".toList)
                ("no running server with this name".toList), 0,
                .fail ("ServerNotFound".toList) [])
        else exec_call_phase (env.world i) st k step

/-- The observable trace of the step loop: tool invocations and per-step
verdicts tagged by the step's canonical key. -/
inductive Ev
  | invoke (k : StepKey)
  | skip (k : StepKey)
  | step_passed (k : StepKey)
  | step_failed (k : StepKey)
deriving DecidableEq, Repr

/-- The events one processed step contributes: its tools/call invocations,
in order, followed by its verdict. -/
def chunk_events (k : StepKey) (calls : Nat) (v : StepVerdict) : List Ev :=
  List.replicate calls (.invoke k) ++
    [match v with
      | .skipq => .skip k
      | .fail _ _ => .step_failed k
      | .ok => .step_passed k]

/-- The step loop: fold process_step over the plan's steps, collecting the
event trace. -/
def run_mcp_steps (env : MCPEnv) : ExecState → Nat → List MCPTestStep → ExecState × List Ev
  | st, _, [] => (st, [])
  | st, i, s :: rest =>
    let out := process_step env st i s
    let next := run_mcp_steps env out.1 (i + 1) rest
    (next.1, chunk_events (step_key s) out.2.1 out.2.2 ++ next.2)

/-- run_mcp_tests: an empty plan returns the neutral result untouched;
otherwise the startup phase runs, the step loop runs from the carried-over
quarantine sets, and the result is assembled with total = passed + failed
and all_passed = (failed == 0 and total > 0).  The informational
mcp_summary dictionary is not modelled. -/
def run_mcp_tests (plan : MCPTestPlan) (has_manager : Bool)
    (startup : Nat → StartupOutcome) (world : Nat → StepWorld)
    (q_steps : List StepKey) (q_servers : List Str) :
    TestResult × ExecState × List Ev :=
  let st0 : ExecState :=
    { q_steps := q_steps, q_servers := q_servers, procs := []
      dynamic_provisioned := [], dynamic_call_seen := [], dynamic_reused := []
      dynamic_failed := [], passed := 0, failed := 0, skipped_quarantined := 0
      failure_details := [] }
  if plan.steps = [] then (empty_results, st0, [])
  else
    let started := startup_phase q_servers has_manager startup plan.servers 0
    let env : MCPEnv :=
      { servers := plan.servers, has_manager := has_manager
        startup_errors := started.2, world := world }
    let out := run_mcp_steps env { st0 with procs := started.1 } 0 plan.steps
    let st1 := out.1
    let total := st1.passed + st1.failed
    ({ all_passed := st1.failed == 0 && decide (0 < total)
       total_tests := total
       passed := st1.passed
       failed := st1.failed
       failure_details := st1.failure_details }, st1, out.2)

/-- The merge arm of run_all: totals and failures are summed, details are
concatenated, all_passed is recomputed from the sums. -/
def merge_results (unit mcp : TestResult) : TestResult :=
  let total := unit.total_tests + mcp.total_tests
  let failed := unit.failed + mcp.failed
  { all_passed := failed == 0 && decide (0 < total)
    total_tests := total
    passed := unit.passed + mcp.passed
    failed := failed
    failure_details := unit.failure_details ++ mcp.failure_details }

/-- run_all: unit tests run only when the test FileSet is non-empty (else
the neutral result is used); the MCP half runs and is merged only when a
plan with steps is present, otherwise the unit half is returned as-is. -/
def run_all (test_files_nonempty : Bool) (unit_result : TestResult)
    (plan : Option MCPTestPlan) (mcp_result : TestResult) : TestResult :=
  let unit := if test_files_nonempty then unit_result else empty_results
  match plan with
  | some p => if p.steps ≠ [] then merge_results unit mcp_result else unit
  | none => unit

/-! Re-adaptation predicate, jelly/orchestrator.py. -/

/-- _ADAPT_RELEVANT_ERROR_TYPES. -/
def adapt_relevant_error_types : List Str :=
  [("importerror".toList), ("modulenotfounderror".toList), ("nameerror".toList),
   ("attributeerror".toList), ("syntaxerror".toList), ("indentationerror".toList)]

/-- _ADAPT_RELEVANT_TEXT_FRAGMENTS. -/
def adapt_relevant_text_fragments : List Str :=
  [("no module named".toList), ("cannot import name".toList), ("importerror".toList),
   ("nameerror".toList), ("attributeerror".toList), ("has no attribute".toList),
   ("is not defined".toList), ("found no collectors".toList), ("fixture".toList),
   ("syntaxerror".toList), ("indentationerror".toList)]

/-- The lower-cased join of one failure's test name, error message and
traceback that the fragment scan searches. -/
def merged_failure_text (f : Failure) : Str :=
  lower (List.intercalate (" ".toList) [f.test_name, f.error_message, f.traceback])

/-- _failure_requires_test_adaptation: error-type membership first, then the
fragment scan over the merged text. -/
def failure_requires_test_adaptation (f : Failure) : Bool :=
  if lower (strip f.error_type) ∈ adapt_relevant_error_types then true
  else adapt_relevant_text_fragments.any (fun frag => contains_sub frag (merged_failure_text f))

/-- _code_module_structure_changed: the sorted key lists differ. -/
def code_module_structure_changed (prev curr : List Str) : Bool :=
  !(sort_strs prev == sort_strs curr)

/-- _should_readapt_tests with its reason tag. -/
def should_readapt_tests (r : TestResult) (prev curr : List Str) : Bool × Str :=
  if code_module_structure_changed prev curr then
    (true, ("code_structure_changed".toList))
  else if r.failure_details.any failure_requires_test_adaptation then
    (true, ("import_symbol_or_test_structure_failure".toList))
  else (false, ("mcp_or_runtime_only".toList))

/-- The tail of one non-final failing iteration of step (4): after the
refiner produced the new code FileSet, tests are re-adapted exactly when
_should_readapt_tests says so; the adapted FileSet is the oracle for the
test designer's adapt call. -/
def refine_and_maybe_adapt (results : TestResult) (prev_keys curr_keys : List Str)
    (test_files adapted : List (Str × Str)) : List (Str × Str) × Bool :=
  let sa := (should_readapt_tests results prev_keys curr_keys).1
  ((if sa then adapted else test_files), sa)

/-! Sidecar manager, jelly/mcp_sidecar_manager.py. -/

/-- The linear port scan of _allocate_port: from the current candidate, skip
ports already in the used set, return the first bindable one, give up when
the span is exhausted. -/
def scan_ports (used : List Nat) (bindable : Nat → Bool) : Nat → Nat → Option Nat
  | _, 0 => none
  | p, n + 1 =>
    if p ∈ used then scan_ports used bindable (p + 1) n
    else if bindable p then some p
    else scan_ports used bindable (p + 1) n

/-- _allocate_port: scan the configured range; none models the raised
RuntimeError when no port qualifies. -/
def allocate_port (used : List Nat) (bindable : Nat → Bool) (base span : Nat) : Option Nat :=
  scan_ports used bindable base span

/-- The sidecar configuration fields launch_sidecar reads. -/
structure SidecarConfig where
  enabled : Bool
  max_per_run : Nat
  base_port : Nat
  port_span : Nat

/-- The OS- and process-level outcomes one launch_sidecar call observes:
socket bindability per port, liveness of an already-managed process, the
install_if_needed outcome, and the final health-check outcome (already
accounting for the one native-to-bridge retry, which reuses the same
port). -/
structure SidecarWorld where
  bindable : Nat → Bool
  proc_running : Str → Bool
  install_ok : Bool
  healthy : Bool

/-- The manager state launch_sidecar reads and writes. -/
structure SidecarState where
  managed : List (Str × Nat)
  used_ports : List Nat
  failed_servers : List Str
  launched_servers : List Str
  reused_servers : List Str
deriving DecidableEq, Repr

/-- The error exits of launch_sidecar (each raises RuntimeError in the
source). -/
inductive LaunchError
  | disabled
  | quarantined
  | cap_reached
  | install_failed
  | no_free_port
  | health_failed
deriving DecidableEq, Repr

/-- Python dict assignment on the assoc-list model of _managed. -/
def dict_insert (m : List (Str × Nat)) (k : Str) (v : Nat) : List (Str × Nat) :=
  (k, v) :: m.filter (fun kv => !(kv.1 == k))

/-- The fresh-launch tail of launch_sidecar: cap check, install, port choice
(the explicit truthy sidecar_port bypasses the allocator), spawn plus
health check; success records the managed sidecar, claims the port and
marks the server launched, failure quarantines the server.  Install-cache
bookkeeping and log files are not modelled. -/
def launch_fresh (cfg : SidecarConfig) (w : SidecarWorld) (st : SidecarState)
    (name : Str) (sidecar_port : Option Nat) : SidecarState × Except LaunchError Nat :=
  if cfg.max_per_run ≤ st.managed.length then (st, .error .cap_reached)
  else if w.install_ok = false then
    ({ st with failed_servers := name :: st.failed_servers }, .error .install_failed)
  else
    let portOpt :=
      match sidecar_port with
      | some p =>
        if p ≠ 0 then some p
        else allocate_port st.used_ports w.bindable cfg.base_port cfg.port_span
      | none => allocate_port st.used_ports w.bindable cfg.base_port cfg.port_span
    match portOpt with
    | none => (st, .error .no_free_port)
    | some port =>
      if w.healthy then
        ({ st with
           managed := dict_insert st.managed name port
           used_ports := port :: st.used_ports
           launched_servers := name :: st.launched_servers }, .ok port)
      else
        ({ st with failed_servers := name :: st.failed_servers }, .error .health_failed)

/-- launch_sidecar: config gate, quarantine gate, reuse of a still-running
managed sidecar, then the fresh-launch tail. -/
def launch_sidecar (cfg : SidecarConfig) (w : SidecarWorld) (st : SidecarState)
    (name : Str) (sidecar_port : Option Nat) : SidecarState × Except LaunchError Nat :=
  if cfg.enabled = false then (st, .error .disabled)
  else if name ∈ st.failed_servers then (st, .error .quarantined)
  else
    match st.managed.lookup name with
    | some p =>
      if w.proc_running name then
        ({ st with reused_servers := name :: st.reused_servers }, .ok p)
      else launch_fresh cfg w st name sidecar_port
    | none => launch_fresh cfg w st name sidecar_port

/-! Output writer, jelly/utils.py. -/

/-- Python str.lstrip over the two slash characters. -/
def lstrip_slashes (s : Str) : Str :=
  s.dropWhile (fun c => c = '/' ∨ c = '\\')

/-- The per-entry filename normalization of write_files: strip leading
slashes and backslashes, convert backslashes, and remove one leading
base-name component when present.  Nothing else — double-dot components
survive. -/
def write_files_normalize (base_name : Str) (filename : Str) : Str :=
  let n := convert_slashes (lstrip_slashes filename)
  let rp := base_name ++ ("/".toList)
  if starts_with n rp then n.drop rp.length else n

/-- The on-disk component path write_files opens for one entry: the base
directory followed by the slash components of the normalized name (pathlib
drops empty and single-dot components when joining), resolved by the OS. -/
def write_files_dest (base : List Str) (base_name : Str) (filename : Str) : List Str :=
  resolve_from base
    ((split_on '/' (write_files_normalize base_name filename)).filter
      (fun p => !(p == ([] : Str) || p == (".".toList))))

/-! Claim-side formalizations: definitions that transcribe the wording of
the spec claims, to be compared with the source embeddings above. -/

/-- The delegation signature exactly as claim C7 words it: missing
capabilities sorted and joined, else sorted reasons joined (with no
truncation mentioned), else the sentinel. -/
def claimed_capability_signature (d : CapabilityDecision) : Str :=
  if d.missing_capabilities ≠ [] then join_bar (sort_strs d.missing_capabilities)
  else if d.reasons ≠ [] then join_bar (sort_strs d.reasons)
  else ("unspecified_capability_gap".toList)

/-- The re-adaptation error kinds as claim C4 spells them (original
capitalization; the claim says the match is case-insensitive). -/
def claimed_adapt_error_types : List Str :=
  [("ImportError".toList), ("ModuleNotFoundError".toList), ("NameError".toList),
   ("AttributeError".toList), ("SyntaxError".toList), ("IndentationError".toList)]

/-- The re-adaptation text fragments in the order claim C4 lists them. -/
def claimed_adapt_fragments : List Str :=
  [("no module named".toList), ("cannot import name".toList), ("has no attribute".toList),
   ("is not defined".toList), ("found no collectors".toList), ("fixture".toList),
   ("importerror".toList), ("nameerror".toList), ("attributeerror".toList),
   ("syntaxerror".toList), ("indentationerror".toList)]

deriving instance DecidableEq for Except

/-! Concrete inputs used by counterexamples and witnesses. -/

/-- A capability decision whose only reason is 231 characters long, so the
signature the code computes is truncated to 200 characters. -/
def long_reason_decision : CapabilityDecision :=
  { capable := false, confidence := 0, reasons := [List.replicate 231 'a']
    missing_capabilities := [], recommended_child_requirements := []
    mcp_baseline_status := [], preflight_checks := [], depth := 0 }

/-- A seen-signature list holding the untruncated join of the reasons of
long_reason_decision. -/
def long_reason_seen : List Str := [List.replicate 231 'a']

/-- A sidecar world where every port binds, every process stays up, install
succeeds and the health check passes. -/
def permissive_sidecar_world : SidecarWorld :=
  { bindable := fun _ => true, proc_running := fun _ => true
    install_ok := true, healthy := true }

/-- A small enabled sidecar configuration. -/
def sample_sidecar_config : SidecarConfig :=
  { enabled := true, max_per_run := 10, base_port := 9000, port_span := 50 }

/-- The empty sidecar manager state at the start of a run. -/
def sidecar_initial_state : SidecarState :=
  { managed := [], used_ports := [], failed_servers := []
    launched_servers := [], reused_servers := [] }

/-- The manager state after launching server a with explicit port 9100 in
the permissive world. -/
def sidecar_state_after_a : SidecarState :=
  (launch_sidecar sample_sidecar_config permissive_sidecar_world sidecar_initial_state
    ("a".toList) (some 9100)).1

/-- A sample MCP step against a server named svc. -/
def sample_step : MCPTestStep :=
  { description := ("d".toList), server := ("svc".toList), tool := ("t".toList)
    arguments := [], expected := [] }

/-- A step world whose tool calls always raise. -/
def sample_world : StepWorld :=
  { provision := .ok
    call1 := .exc ("RuntimeError".toList) ("boom".toList)
    call2 := .exc ("RuntimeError".toList) ("boom".toList) }

/-- An executor environment with no configured servers. -/
def sample_env : MCPEnv :=
  { servers := [], has_manager := false, startup_errors := []
    world := fun _ => sample_world }

/-- The pristine executor state at the start of a run. -/
def exec_state0 : ExecState :=
  { q_steps := [], q_servers := [], procs := [], dynamic_provisioned := []
    dynamic_call_seen := [], dynamic_reused := [], dynamic_failed := []
    passed := 0, failed := 0, skipped_quarantined := 0, failure_details := [] }

/-- An executor state in which server svc is already quarantined. -/
def exec_state_quarantined : ExecState :=
  { exec_state0 with q_servers := [("svc".toList)] }

/-- A single failing hard preflight check, used by the claim C6 witness. -/
def failing_hard_check : PreflightCheck :=
  { name := ("k".toList), ok := false, severity := ("hard".toList), message := ("m".toList) }

/-- A fully confident available LM assessment, used by the claim C6 witness. -/
def confident_assessment : CapabilityAssessment :=
  { capable := true, confidence := 1, reasons := [], missing_capabilities := []
    recommended_child_requirements := [], assessment_available := true }

/-- The unavailable sentinel assessment, used by the claim C6 witness. -/
def unavailable_assessment : CapabilityAssessment :=
  { capable := false, confidence := 0, reasons := [], missing_capabilities := []
    recommended_child_requirements := [], assessment_available := false }

/-- A failure record with a ModuleNotFoundError error type, used by the
claim C4 witness. -/
def module_missing_failure : Failure :=
  { test_name := ("test_a".toList), error_type := ("ModuleNotFoundError".toList)
    error_message := ("No module named parser_mod".toList), traceback := [] }

/-- A TestResult holding one module-missing failure, used by the claim C4
witness. -/
def module_missing_result : TestResult :=
  { all_passed := false, total_tests := 1, passed := 0, failed := 1
    failure_details := [module_missing_failure] }

/-- A concrete parsed pytest output used by witnesses: one passed, one
failed, no error lines matched. -/
def sample_pytest_stdout : PytestStdout :=
  { passed_count := 1, failed_count := 1, error_count := 0
    matched_details := [], section_details := [], combined := ("boom".toList) }

/-- The comparison relation of sort_strs as a proposition. -/
def str_le_rel (a b : Str) : Prop := str_le a b = true

instance (a b : Str) : Decidable (str_le_rel a b) := by
  unfold str_le_rel; infer_instance

/-! Order lemmas for the string comparison. -/

theorem str_le_total : ∀ a b : Str, str_le a b = true ∨ str_le b a = true
  | [], _ => Or.inl rfl
  | _ :: _, [] => Or.inr rfl
  | a :: as, b :: bs => by
    by_cases hab : a = b
    · subst hab
      simpa [str_le] using str_le_total as bs
    · have hba : ¬ b = a := fun h => hab h.symm
      rcases lt_trichotomy a b with h | h | h
      · left; simp [str_le, hab, h]
      · exact absurd h hab
      · right; simp [str_le, hba, h]

theorem str_le_antisymm : ∀ a b : Str, str_le a b = true → str_le b a = true → a = b
  | [], [], _, _ => rfl
  | [], _ :: _, _, h2 => by simp [str_le] at h2
  | _ :: _, [], h1, _ => by simp [str_le] at h1
  | a :: as, b :: bs, h1, h2 => by
    by_cases hab : a = b
    · subst hab
      simp only [str_le, if_pos rfl] at h1 h2
      rw [str_le_antisymm as bs h1 h2]
    · exfalso
      have hba : ¬ b = a := fun h => hab h.symm
      simp only [str_le, if_neg hab, decide_eq_true_eq] at h1
      simp only [str_le, if_neg hba, decide_eq_true_eq] at h2
      exact absurd h2 (not_lt_of_gt h1)

theorem str_le_trans : ∀ a b c : Str, str_le a b = true → str_le b c = true →
    str_le a c = true
  | [], _, _, _, _ => rfl
  | _ :: _, [], _, h1, _ => by simp [str_le] at h1
  | _ :: _, _ :: _, [], _, h2 => by simp [str_le] at h2
  | a :: as, b :: bs, c :: cs, h1, h2 => by
    by_cases hab : a = b
    · subst hab
      by_cases hac : a = c
      · subst hac
        simp only [str_le, if_pos rfl] at h1 h2 ⊢
        exact str_le_trans as bs cs h1 h2
      · simp only [str_le, if_pos rfl] at h1
        simpa [str_le, hac] using h2
    · by_cases hbc : b = c
      · subst hbc
        simpa [str_le, hab] using h1
      · simp only [str_le, if_neg hab, decide_eq_true_eq] at h1
        simp only [str_le, if_neg hbc, decide_eq_true_eq] at h2
        have hac : a < c := lt_trans h1 h2
        have hac2 : ¬ a = c := fun h => absurd (h ▸ hac) (lt_irrefl c)
        simp [str_le, hac2, hac]

/-! Sorting lemmas: sort_strs permutes its input, sorts it, and is constant
on permutation classes; two lists have equal sorts exactly when they are
permutations of each other. -/

theorem ordered_insert_perm (x : Str) :
    ∀ l : List Str, List.Perm (ordered_insert x l) (x :: l)
  | [] => List.Perm.refl _
  | y :: ys => by
    unfold ordered_insert
    by_cases h : str_le x y = true
    · simp [h]
    · simp only [h, if_false]
      exact ((ordered_insert_perm x ys).cons y).trans (List.Perm.swap x y ys)

theorem sort_strs_perm : ∀ l : List Str, List.Perm (sort_strs l) l
  | [] => List.Perm.refl _
  | x :: xs =>
    (ordered_insert_perm x (sort_strs xs)).trans ((sort_strs_perm xs).cons x)

theorem mem_ordered_insert {z x : Str} {l : List Str} :
    z ∈ ordered_insert x l ↔ z = x ∨ z ∈ l := by
  constructor
  · intro h
    simpa using (ordered_insert_perm x l).mem_iff.mp h
  · intro h
    apply (ordered_insert_perm x l).mem_iff.mpr
    simpa using h

theorem ordered_insert_pairwise (x : Str) :
    ∀ l : List Str, List.Pairwise str_le_rel l →
      List.Pairwise str_le_rel (ordered_insert x l)
  | [], _ => by simp [ordered_insert, str_le_rel]
  | y :: ys, h => by
    rcases List.pairwise_cons.mp h with ⟨hy, hys⟩
    unfold ordered_insert
    by_cases hxy : str_le x y = true
    · simp only [hxy, if_true]
      refine List.pairwise_cons.mpr ⟨?_, h⟩
      intro z hz
      rcases List.mem_cons.mp hz with hz | hz
      · exact hz ▸ hxy
      · exact str_le_trans x y z hxy (hy z hz)
    · simp only [hxy, if_false]
      refine List.pairwise_cons.mpr ⟨?_, ordered_insert_pairwise x ys hys⟩
      intro z hz
      rcases mem_ordered_insert.mp hz with hz | hz
      · rw [hz]
        rcases str_le_total x y with h | h
        · exact absurd h hxy
        · exact h
      · exact hy z hz

theorem sort_strs_pairwise : ∀ l : List Str, List.Pairwise str_le_rel (sort_strs l)
  | [] => List.Pairwise.nil
  | x :: xs => ordered_insert_pairwise x (sort_strs xs) (sort_strs_pairwise xs)

theorem sorted_perm_eq : ∀ {l1 l2 : List Str}, List.Perm l1 l2 →
    List.Pairwise str_le_rel l1 → List.Pairwise str_le_rel l2 → l1 = l2
  | [], l2, hp, _, _ => (hp.symm.eq_nil).symm
  | _ :: _, [], hp, _, _ => absurd hp.eq_nil (List.cons_ne_nil _ _)
  | x :: xs, y :: ys, hp, h1, h2 => by
    rcases List.pairwise_cons.mp h1 with ⟨hx, hxs⟩
    rcases List.pairwise_cons.mp h2 with ⟨hy, hys⟩
    have hxy : x = y := by
      have hxm : x ∈ y :: ys := hp.mem_iff.mp (List.mem_cons_self x xs)
      have hym : y ∈ x :: xs := hp.symm.mem_iff.mp (List.mem_cons_self y ys)
      rcases List.mem_cons.mp hxm with h | h
      · exact h
      · rcases List.mem_cons.mp hym with h9 | h9
        · exact h9.symm
        · exact str_le_antisymm x y (hx y h9) (hy x h)
    subst hxy
    have hpt : List.Perm xs ys := hp.cons_inv
    rw [sorted_perm_eq hpt hxs hys]

theorem sort_strs_eq_iff {l1 l2 : List Str} :
    sort_strs l1 = sort_strs l2 ↔ List.Perm l1 l2 := by
  constructor
  · intro h
    exact (sort_strs_perm l1).symm.trans (h ▸ sort_strs_perm l2)
  · intro h
    exact sorted_perm_eq
      ((sort_strs_perm l1).trans (h.trans (sort_strs_perm l2).symm))
      (sort_strs_pairwise l1) (sort_strs_pairwise l2)

/-! Branch equations for delegate_to_child_builder. -/

theorem delegate_depth_exceeded (depth : Nat) (m : Int) (d : CapabilityDecision)
    (seen : List Str) (child : ChildOutcome)
    (h : depth + 1 > (max 0 m).toNat) :
    delegate_to_child_builder depth m d seen child =
      (pregnancy_failure_result ("PregnancyDepthExceeded".toList)
        ("maximum depth reached".toList) depth ((max 0 m).toNat), false) := by
  unfold delegate_to_child_builder
  simp [h]

theorem delegate_repeated_signature (depth : Nat) (m : Int) (d : CapabilityDecision)
    (seen : List Str) (child : ChildOutcome)
    (h1 : ¬ depth + 1 > (max 0 m).toNat) (h2 : capability_signature d ∈ seen) :
    delegate_to_child_builder depth m d seen child =
      (pregnancy_failure_result ("RepeatedCapabilitySignature".toList)
        ("repeated capability signature detected".toList) depth ((max 0 m).toNat), false) := by
  unfold delegate_to_child_builder
  simp [h1, h2]

theorem delegate_spawns (depth : Nat) (m : Int) (d : CapabilityDecision)
    (seen : List Str) (child : ChildOutcome)
    (h1 : ¬ depth + 1 > (max 0 m).toNat) (h2 : capability_signature d ∉ seen) :
    (delegate_to_child_builder depth m d seen child).2 = true ∧
    (child = .timeout →
      (delegate_to_child_builder depth m d seen child).1 =
        pregnancy_failure_result ("PregnancyTimeout".toList)
          ("child builder timed out".toList) depth ((max 0 m).toNat)) ∧
    (∀ rc so se, child = .exited rc so se → rc ≠ 0 →
      (delegate_to_child_builder depth m d seen child).1 =
        pregnancy_failure_result ("ChildBuilderFailed".toList)
          ("child builder exited non-zero".toList) depth ((max 0 m).toNat)) ∧
    (∀ so se, child = .exited 0 so se →
      (delegate_to_child_builder depth m d seen child).1 =
        { all_passed := true, total_tests := 0, passed := 0, failed := 0
          failure_details := [], delegated_to_child := true
          pregnancy_depth := depth, pregnancy_max_depth := (max 0 m).toNat }) := by
  unfold delegate_to_child_builder
  simp only [h1, if_false, h2, if_neg]
  refine ⟨?_, ?_, ?_, ?_⟩
  · cases child with
    | timeout => rfl
    | exited rc so se =>
      by_cases hrc : rc = 0
      · simp [hrc]
      · simp [hrc]
  · rintro rfl
    rfl
  · rintro rc so se rfl hrc
    simp [hrc]
  · rintro so se rfl
    rfl

/-- The claim's depth condition and the code's guard agree for every
natural depth and integer configured maximum. -/
theorem depth_guard_iff (depth : Nat) (m : Int) :
    ((depth : Int) + 1 > m) ↔ depth + 1 > (max 0 m).toNat := by
  omega

/-- Claim C2 counterexample: with an empty test FileSet and no MCP plan,
run_all returns the neutral result with all_passed true, not false as the
claim states. -/
theorem run_all_empty_counterexample :
    ¬ ((run_all false empty_results none empty_results).all_passed = false) ∧
    (run_all false empty_results none empty_results).total_tests = 0 ∧
    (run_all false empty_results none empty_results).passed = 0 ∧
    (run_all false empty_results none empty_results).failed = 0 := by
  decide

/-- Claim C2 (amended): when TestExecutor.run_all is called with an empty
test FileSet and no MCP plan (or a plan with zero steps), it returns the
neutral all-zero result with total_tests = 0, passed = 0, failed = 0, and
all_passed = true — the empty run is reported as passing even though
total_tests = 0. -/
theorem run_all_empty_neutral (u m : TestResult) (plan : Option MCPTestPlan)
    (h : ∀ p, plan = some p → p.steps = []) :
    run_all false u plan m = empty_results ∧
    (run_all false u plan m).all_passed = true ∧
    (run_all false u plan m).total_tests = 0 ∧
    (run_all false u plan m).passed = 0 ∧
    (run_all false u plan m).failed = 0 := by
  have he : run_all false u plan m = empty_results := by
    cases plan with
    | none => rfl
    | some p =>
      have hp := h p rfl
      simp [run_all, hp]
  refine ⟨he, ?_, ?_, ?_, ?_⟩ <;> rw [he] <;> rfl

/-- Witness for the amended claim C2 theorem, at a concrete plan with zero
steps. -/
theorem run_all_empty_neutral_witness :
    run_all false empty_results (some { servers := [], steps := [], reason := [] })
        empty_results = empty_results :=
  (run_all_empty_neutral empty_results empty_results
    (some { servers := [], steps := [], reason := [] })
    (fun p hp => by cases hp; rfl)).1

/-- Claim C9: the write_files normalization only strips leading slashes,
converts backslashes and removes one leading destination-basename prefix;
double-dot components survive, so the entry ../x.py is written outside
project_dir/src — unlike sandbox materialization, which drops the
double-dot component. -/
theorem write_files_escape_claim :
    write_files_normalize ("src".toList) ("//a.py".toList) = ("a.py".toList) ∧
    write_files_normalize ("src".toList) ("src/a.py".toList) = ("a.py".toList) ∧
    write_files_normalize ("src".toList) ("..\\x.py".toList) = ("../x.py".toList) ∧
    write_files_normalize ("src".toList) ("../x.py".toList) = ("../x.py".toList) ∧
    write_files_dest [("proj".toList), ("src".toList)] ("src".toList) ("../x.py".toList)
      = [("proj".toList), ("x.py".toList)] ∧
    ¬ ([("proj".toList), ("src".toList)] <+:
        write_files_dest [("proj".toList), ("src".toList)] ("src".toList) ("../x.py".toList)) ∧
    safe_relative_path ("../x.py".toList) ("src".toList) (fallback_src_name 0)
      = [("x.py".toList)] := by
  decide

/-- Claim C10: every result of delegate_to_child_builder carries
delegated_to_child = true; the two guard failures synthesized before any
child exists have total_tests 1, passed 0, failed 1 with their error
types; the child-success result has all_passed true with total_tests 0. -/
theorem delegate_result_shapes (depth : Nat) (m : Int) (d : CapabilityDecision)
    (seen : List Str) (child : ChildOutcome) :
    (delegate_to_child_builder depth m d seen child).1.delegated_to_child = true ∧
    (((depth : Int) + 1 > m) →
      (delegate_to_child_builder depth m d seen child).1 =
        pregnancy_failure_result ("PregnancyDepthExceeded".toList)
          ("maximum depth reached".toList) depth ((max 0 m).toNat) ∧
      (delegate_to_child_builder depth m d seen child).1.total_tests = 1 ∧
      (delegate_to_child_builder depth m d seen child).1.passed = 0 ∧
      (delegate_to_child_builder depth m d seen child).1.failed = 1) ∧
    (((depth : Int) + 1 ≤ m) → capability_signature d ∈ seen →
      (delegate_to_child_builder depth m d seen child).1 =
        pregnancy_failure_result ("RepeatedCapabilitySignature".toList)
          ("repeated capability signature detected".toList) depth ((max 0 m).toNat) ∧
      (delegate_to_child_builder depth m d seen child).1.total_tests = 1 ∧
      (delegate_to_child_builder depth m d seen child).1.passed = 0 ∧
      (delegate_to_child_builder depth m d seen child).1.failed = 1) ∧
    (∀ so se, ((depth : Int) + 1 ≤ m) → capability_signature d ∉ seen →
      child = .exited 0 so se →
      (delegate_to_child_builder depth m d seen child).1.all_passed = true ∧
      (delegate_to_child_builder depth m d seen child).1.total_tests = 0) := by
  refine ⟨?_, ?_, ?_, ?_⟩
  · by_cases h1 : depth + 1 > (max 0 m).toNat
    · rw [delegate_depth_exceeded depth m d seen child h1]
      rfl
    · by_cases h2 : capability_signature d ∈ seen
      · rw [delegate_repeated_signature depth m d seen child h1 h2]
        rfl
      · rcases delegate_spawns depth m d seen child h1 h2 with ⟨_, ht, he, hs⟩
        cases child with
        | timeout => rw [ht rfl]; rfl
        | exited rc so se =>
          by_cases hrc : rc = 0
          · subst hrc; rw [hs so se rfl]
          · rw [he rc so se rfl hrc]; rfl
  · intro h
    have h1 : depth + 1 > (max 0 m).toNat := (depth_guard_iff depth m).mp h
    rw [delegate_depth_exceeded depth m d seen child h1]
    exact ⟨rfl, rfl, rfl, rfl⟩
  · intro h h2
    have h1 : ¬ depth + 1 > (max 0 m).toNat := by
      intro hc
      exact absurd ((depth_guard_iff depth m).mpr hc) (not_lt_of_ge h)
    rw [delegate_repeated_signature depth m d seen child h1 h2]
    exact ⟨rfl, rfl, rfl, rfl⟩
  · intro so se h h2 hc
    have h1 : ¬ depth + 1 > (max 0 m).toNat := by
      intro hg
      exact absurd ((depth_guard_iff depth m).mpr hg) (not_lt_of_ge h)
    rcases delegate_spawns depth m d seen child h1 h2 with ⟨_, _, _, hs⟩
    rw [hs so se hc]
    exact ⟨rfl, rfl⟩

/-- Witness for claim C10 at concrete inputs: the depth guard fires with
max depth 0, and a child-success run passes with zero tests. -/
theorem delegate_result_shapes_witness :
    (delegate_to_child_builder 0 0 long_reason_decision [] .timeout).1 =
      pregnancy_failure_result ("PregnancyDepthExceeded".toList)
        ("maximum depth reached".toList) 0 0 ∧
    (delegate_to_child_builder 0 5 long_reason_decision [] (.exited 0 [] [])).1.all_passed
      = true :=
  ⟨((delegate_result_shapes 0 0 long_reason_decision [] .timeout).2.1 (by decide)).1,
   ((delegate_result_shapes 0 5 long_reason_decision [] (.exited 0 [] [])).2.2.2
      [] [] (by decide) (by decide) rfl).1⟩

/-- Claim C7 counterexample: a decision whose single reason is 231
characters long.  The signature as the claim words it (sorted reasons
joined, no truncation) is in seen_signatures, yet delegation does not
abort: a child is spawned, because the code truncates the joined reasons
to 200 characters before the membership test. -/
theorem delegate_guards_counterexample :
    claimed_capability_signature long_reason_decision ∈ long_reason_seen ∧
    ((0 : Nat) + 1 : Int) ≤ 5 ∧
    (delegate_to_child_builder 0 5 long_reason_decision long_reason_seen
      (.exited 0 [] [])).2 = true ∧
    (delegate_to_child_builder 0 5 long_reason_decision long_reason_seen
      (.exited 0 [] [])).1.failure_details = [] := by
  decide

/-- Claim C7 (amended): delegate_to_child_builder aborts with a
PregnancyDepthExceeded single-failure result whenever depth + 1 exceeds
pregnancy_max_depth, and with RepeatedCapabilitySignature whenever the
signature computed from the decision — missing_capabilities sorted and
joined, else the sorted reasons joined and truncated to the first 200
characters, else the sentinel — is already in seen_signatures; both guards
run before any child is spawned, a spawn implies both guards passed, and
with pregnancy_max_depth = 0 a child is never spawned. -/
theorem delegate_guards (depth : Nat) (m : Int) (d : CapabilityDecision)
    (seen : List Str) (child : ChildOutcome) :
    (((depth : Int) + 1 > m) →
      delegate_to_child_builder depth m d seen child =
        (pregnancy_failure_result ("PregnancyDepthExceeded".toList)
          ("maximum depth reached".toList) depth ((max 0 m).toNat), false)) ∧
    (((depth : Int) + 1 ≤ m) → capability_signature d ∈ seen →
      delegate_to_child_builder depth m d seen child =
        (pregnancy_failure_result ("RepeatedCapabilitySignature".toList)
          ("repeated capability signature detected".toList) depth ((max 0 m).toNat), false)) ∧
    ((delegate_to_child_builder depth m d seen child).2 = true →
      ((depth : Int) + 1 ≤ m) ∧ capability_signature d ∉ seen) ∧
    (m = 0 → (delegate_to_child_builder depth m d seen child).2 = false) ∧
    (d.missing_capabilities ≠ [] →
      capability_signature d = join_bar (sort_strs d.missing_capabilities)) ∧
    (d.missing_capabilities = [] → d.reasons ≠ [] →
      capability_signature d = (join_bar (sort_strs d.reasons)).take 200) ∧
    (d.missing_capabilities = [] → d.reasons = [] →
      capability_signature d = ("unspecified_capability_gap".toList)) := by
  refine ⟨?_, ?_, ?_, ?_, ?_, ?_, ?_⟩
  · intro h
    exact delegate_depth_exceeded depth m d seen child ((depth_guard_iff depth m).mp h)
  · intro h h2
    have h1 : ¬ depth + 1 > (max 0 m).toNat := by
      intro hg
      exact absurd ((depth_guard_iff depth m).mpr hg) (not_lt_of_ge h)
    exact delegate_repeated_signature depth m d seen child h1 h2
  · intro hsp
    by_cases h1 : depth + 1 > (max 0 m).toNat
    · rw [delegate_depth_exceeded depth m d seen child h1] at hsp
      simp at hsp
    · by_cases h2 : capability_signature d ∈ seen
      · rw [delegate_repeated_signature depth m d seen child h1 h2] at hsp
        simp at hsp
      · exact ⟨le_of_not_lt (fun hm => h1 ((depth_guard_iff depth m).mp hm)), h2⟩
  · intro hm
    subst hm
    rw [delegate_depth_exceeded depth 0 d seen child (by omega)]
  · intro h
    unfold capability_signature
    simp [h]
  · intro h hr
    unfold capability_signature
    simp [h, hr]
  · intro h hr
    unfold capability_signature
    simp [h, hr]

/-- Witness for the amended claim C7 theorem: both guards at concrete
inputs, and the signature equations of the long-reason decision. -/
theorem delegate_guards_witness :
    delegate_to_child_builder 3 2 long_reason_decision [] .timeout =
      (pregnancy_failure_result ("PregnancyDepthExceeded".toList)
        ("maximum depth reached".toList) 3 2, false) ∧
    delegate_to_child_builder 0 4 long_reason_decision
        [capability_signature long_reason_decision] .timeout =
      (pregnancy_failure_result ("RepeatedCapabilitySignature".toList)
        ("repeated capability signature detected".toList) 0 4, false) ∧
    capability_signature long_reason_decision =
      (join_bar (sort_strs long_reason_decision.reasons)).take 200 :=
  ⟨(delegate_guards 3 2 long_reason_decision [] .timeout).1 (by decide),
   (delegate_guards 0 4 long_reason_decision
      [capability_signature long_reason_decision] .timeout).2.1 (by decide)
      (List.mem_singleton.mpr rfl),
   (delegate_guards 0 4 long_reason_decision [] .timeout).2.2.2.2.2.1
      (by decide) (by decide)⟩

/-- The code's hard-failure filter is non-empty exactly when some check in
the list failed with hard severity. -/
theorem hard_failures_iff (checks : List PreflightCheck) :
    checks.filter (fun c => !c.ok && c.severity == ("hard".toList)) ≠ [] ↔
      ∃ c ∈ checks, c.ok = false ∧ c.severity = ("hard".toList) := by
  rw [Ne, List.filter_eq_nil_iff]
  push_neg
  constructor
  · rintro ⟨c, hc, hp⟩
    simp only [Bool.and_eq_true, Bool.not_eq_true', beq_iff_eq] at hp
    exact ⟨c, hc, hp.1, hp.2⟩
  · rintro ⟨c, hc, hok, hsev⟩
    exact ⟨c, hc, by simp [hok, hsev]⟩

/-- Claim C6: if any hard preflight check fails the decision is incapable
with confidence 0 and the LM checker is never invoked; otherwise, with the
LM assessment available, capable equals the conjunction of the LM verdict
and the threshold comparison; with the assessment unparseable, the gate
falls back to capable with the fallback reason recorded. -/
theorem capability_gate_claim (req : Str) (pre : List PreflightCheck)
    (mb : List (Str × Bool)) (rq : Bool) (threshold : ℚ)
    (llm : CapabilityAssessment) (depth : Nat) :
    ((∃ c ∈ pre ++ (if rq then baseline_checks mb else []),
        c.ok = false ∧ c.severity = ("hard".toList)) →
      (assess_capability req pre mb rq threshold llm depth).1.capable = false ∧
      (assess_capability req pre mb rq threshold llm depth).1.confidence = 0 ∧
      (assess_capability req pre mb rq threshold llm depth).2 = false) ∧
    ((∀ c ∈ pre ++ (if rq then baseline_checks mb else []),
        ¬ (c.ok = false ∧ c.severity = ("hard".toList))) →
      (llm.assessment_available = true →
        (assess_capability req pre mb rq threshold llm depth).1.capable =
          (llm.capable && decide (threshold ≤ llm.confidence)) ∧
        (assess_capability req pre mb rq threshold llm depth).2 = true) ∧
      (llm.assessment_available = false →
        (assess_capability req pre mb rq threshold llm depth).1.capable = true ∧
        fallback_reason ∈ (assess_capability req pre mb rq threshold llm depth).1.reasons ∧
        (assess_capability req pre mb rq threshold llm depth).2 = true)) := by
  constructor
  · intro hex
    have hf := (hard_failures_iff (pre ++ (if rq then baseline_checks mb else []))).mpr hex
    unfold assess_capability
    rw [if_pos hf]
    exact ⟨rfl, rfl, rfl⟩
  · intro hall
    have hnone : (pre ++ (if rq then baseline_checks mb else [])).filter
        (fun c => !c.ok && c.severity == ("hard".toList)) = [] := by
      by_contra hne
      rcases (hard_failures_iff _).mp hne with ⟨c, hc, hok, hsev⟩
      exact hall c hc ⟨hok, hsev⟩
    have hcond : ¬ ((pre ++ (if rq then baseline_checks mb else [])).filter
        (fun c => !c.ok && c.severity == ("hard".toList)) ≠ []) :=
      fun h => h hnone
    constructor
    · intro ha
      unfold assess_capability
      rw [if_neg hcond]
      constructor
      · show (if llm.assessment_available = true
            then llm.capable && decide (threshold ≤ llm.confidence) else true) = _
        rw [if_pos ha]
      · rfl
    · intro ha
      have ha2 : ¬ (llm.assessment_available = true) := by simp [ha]
      unfold assess_capability
      rw [if_neg hcond]
      refine ⟨?_, ?_, rfl⟩
      · show (if llm.assessment_available = true
            then llm.capable && decide (threshold ≤ llm.confidence) else true) = true
        rw [if_neg ha2]
      · show fallback_reason ∈ (if llm.assessment_available = true
            then _ else llm.reasons ++ [fallback_reason])
        rw [if_neg ha2]
        exact List.mem_append_right _ (List.mem_singleton.mpr rfl)

/-- Witness for claim C6: a failing hard check short-circuits the LM call,
a clean preflight with an available assessment uses the threshold
conjunction, and an unavailable assessment falls back to capable. -/
theorem capability_gate_claim_witness :
    (assess_capability [] [failing_hard_check] [] false 1 confident_assessment 0).2 = false ∧
    (assess_capability [] [] [] false 1 confident_assessment 0).1.capable =
      (true && decide ((1 : ℚ) ≤ 1)) ∧
    (assess_capability [] [] [] false 1 unavailable_assessment 0).1.capable = true := by
  refine ⟨?_, ?_, ?_⟩
  · exact ((capability_gate_claim [] [failing_hard_check] [] false 1
      confident_assessment 0).1 (by decide)).2.2
  · exact (((capability_gate_claim [] [] [] false 1 confident_assessment 0).2
      (fun c hc => absurd hc (List.not_mem_nil c))).1 rfl).1
  · exact (((capability_gate_claim [] [] [] false 1 unavailable_assessment 0).2
      (fun c hc => absurd hc (List.not_mem_nil c))).2 rfl).1

/-! Bridges between the re-adaptation predicate and the claim's wording. -/

/-- The code's structure check is quiet exactly when the key lists are
permutations of each other — the set of code-file paths is unchanged. -/
theorem structure_changed_iff (prev curr : List Str) :
    code_module_structure_changed prev curr = false ↔ List.Perm prev curr := by
  unfold code_module_structure_changed
  rw [Bool.not_eq_false', beq_iff_eq]
  exact sort_strs_eq_iff

/-- The claim's CamelCase error kinds, lower-cased, are the code's set. -/
theorem claimed_types_lowered :
    claimed_adapt_error_types.map lower = adapt_relevant_error_types := by
  decide

/-- The claim's fragment list and the code's fragment tuple hold the same
fragments. -/
theorem fragments_mem_iff (x : Str) :
    x ∈ adapt_relevant_text_fragments ↔ x ∈ claimed_adapt_fragments := by
  simp only [adapt_relevant_text_fragments, claimed_adapt_fragments, List.mem_cons,
    List.not_mem_nil, or_false]
  tauto

/-- One failure triggers re-adaptation exactly under the claim's condition:
its stripped error type is case-insensitively one of the claimed kinds, or
its merged failure text contains one of the claimed fragments. -/
theorem failure_requires_iff (f : Failure) :
    failure_requires_test_adaptation f = true ↔
      (lower (strip f.error_type) ∈ claimed_adapt_error_types.map lower ∨
       ∃ frag ∈ claimed_adapt_fragments,
         contains_sub frag (merged_failure_text f) = true) := by
  unfold failure_requires_test_adaptation
  rw [claimed_types_lowered]
  by_cases h : lower (strip f.error_type) ∈ adapt_relevant_error_types
  · simp [h]
  · simp only [h, if_false, false_or]
    rw [List.any_eq_true]
    constructor
    · rintro ⟨frag, hm, hc⟩
      exact ⟨frag, (fragments_mem_iff frag).mp hm, hc⟩
    · rintro ⟨frag, hm, hc⟩
      exact ⟨frag, (fragments_mem_iff frag).mpr hm, hc⟩

/-- Claim C4: after a non-final failing iteration, tests are re-adapted iff
_should_readapt_tests holds — the set of code-file paths changed, or some
failure has one of the claimed error kinds (case-insensitive), or some
failure's merged text (test name, error message, traceback) contains one of
the claimed fragments; otherwise adaptation is skipped and the test FileSet
is left untouched. -/
theorem readapt_trigger_claim (r : TestResult) (prev curr : List Str)
    (tf ad : List (Str × Str)) :
    ((refine_and_maybe_adapt r prev curr tf ad).2 = true ↔
      ((¬ List.Perm prev curr) ∨
       ∃ f ∈ r.failure_details,
         (lower (strip f.error_type) ∈ claimed_adapt_error_types.map lower ∨
          ∃ frag ∈ claimed_adapt_fragments,
            contains_sub frag (merged_failure_text f) = true))) ∧
    ((refine_and_maybe_adapt r prev curr tf ad).2 = false →
      (refine_and_maybe_adapt r prev curr tf ad).1 = tf) ∧
    ((refine_and_maybe_adapt r prev curr tf ad).2 = true →
      (refine_and_maybe_adapt r prev curr tf ad).1 = ad) := by
  have hb : (refine_and_maybe_adapt r prev curr tf ad).2 =
      (should_readapt_tests r prev curr).1 := rfl
  refine ⟨?_, ?_, ?_⟩
  · rw [hb]
    unfold should_readapt_tests
    by_cases hch : code_module_structure_changed prev curr
    · simp only [hch, if_true]
      constructor
      · intro _
        left
        intro hperm
        rw [(structure_changed_iff prev curr).mpr hperm] at hch
        exact Bool.false_ne_true hch
      · intro _
        trivial
    · have hfalse : code_module_structure_changed prev curr = false :=
        Bool.of_not_eq_true hch
      have hperm := (structure_changed_iff prev curr).mp hfalse
      simp only [hch, if_false]
      by_cases hany : r.failure_details.any failure_requires_test_adaptation
      · simp only [hany, if_true]
        constructor
        · intro _
          right
          rcases List.any_eq_true.mp hany with ⟨f, hf, hreq⟩
          exact ⟨f, hf, (failure_requires_iff f).mp hreq⟩
        · intro _
          trivial
      · simp only [hany, if_false]
        constructor
        · intro hfalse
          exact absurd hfalse (by simp)
        · rintro (hnp | ⟨f, hf, hcond⟩)
          · exact absurd hperm hnp
          · exact absurd (List.any_eq_true.mpr
              ⟨f, hf, (failure_requires_iff f).mpr hcond⟩) (by simp [hany])
  · intro h2
    rw [hb] at h2
    unfold refine_and_maybe_adapt
    simp [h2]
  · intro h2
    rw [hb] at h2
    unfold refine_and_maybe_adapt
    simp [h2]

/-- Witness for claim C4 at concrete inputs: the module-missing failure
triggers re-adaptation with unchanged keys, and on a clean result with
unchanged keys adaptation is skipped and the test FileSet is kept. -/
theorem readapt_trigger_claim_witness :
    (refine_and_maybe_adapt module_missing_result [("a.py".toList)] [("a.py".toList)]
        [] []).2 = true ∧
    (refine_and_maybe_adapt empty_results [("a.py".toList)] [("a.py".toList)]
        [(("t.py".toList), ("x".toList))] []).1 = [(("t.py".toList), ("x".toList))] :=
  ⟨(readapt_trigger_claim module_missing_result [("a.py".toList)] [("a.py".toList)]
      [] []).1.mpr
      (Or.inr ⟨module_missing_failure, by decide, Or.inl (by decide)⟩),
   (readapt_trigger_claim empty_results [("a.py".toList)] [("a.py".toList)]
      [(("t.py".toList), ("x".toList))] []).2.1 (by decide)⟩

/-! Sanitization lemmas for the sandbox materialization paths. -/

/-- Every component of a sanitized relative path either survived the unsafe
filter or is the fallback name. -/
theorem safe_relative_path_mem (fn rd fb : Str) (x : Str)
    (hx : x ∈ safe_relative_path fn rd fb) :
    x = fb ∨ x ∈ filtered_parts (convert_slashes fn) := by
  unfold safe_relative_path at hx
  rcases hparts : filtered_parts (convert_slashes fn) with _ | ⟨p, rest⟩
  · rw [hparts] at hx
    simp at hx
    exact Or.inl hx
  · rw [hparts] at hx
    dsimp only at hx
    by_cases hpr : p = rd
    · rw [if_pos hpr] at hx
      by_cases hrest : rest = []
      · rw [hrest] at hx
        simp at hx
        exact Or.inl hx
      · rw [if_neg hrest] at hx
        exact Or.inr (hparts ▸ List.mem_cons_of_mem p hx)
    · rw [if_neg hpr] at hx
      have hne : p :: rest ≠ [] := List.cons_ne_nil p rest
      rw [if_neg hne] at hx
      exact Or.inr (hparts ▸ hx)

/-- No double-dot component survives the filter of _safe_relative_path. -/
theorem filtered_parts_no_dotdot (raw : Str) :
    ("..".toList) ∉ filtered_parts raw := by
  intro h
  have := List.of_mem_filter h
  simp at this

/-- The sandbox fallback names are never a double-dot component. -/
theorem fallback_src_name_ne_dotdot (idx : Nat) :
    fallback_src_name idx ≠ ("..".toList) := by
  intro h
  have hh := congrArg List.head? h
  simp [fallback_src_name] at hh

/-- A sanitized relative path contains no double-dot component. -/
theorem safe_relative_path_no_dotdot (fn rd : Str) (idx : Nat) :
    ("..".toList) ∉ safe_relative_path fn rd (fallback_src_name idx) := by
  intro h
  rcases safe_relative_path_mem fn rd (fallback_src_name idx) _ h with h | h
  · exact fallback_src_name_ne_dotdot idx h.symm
  · exact filtered_parts_no_dotdot (convert_slashes fn) h

/-- Resolution is plain concatenation when the appended components hold no
double dots. -/
theorem resolve_from_no_dotdot :
    ∀ (l : List Str) (acc : List Str), ("..".toList) ∉ l →
      resolve_from acc l = acc ++ l
  | [], acc, _ => by simp [resolve_from]
  | p :: rest, acc, h => by
    have hp : p ≠ ("..".toList) := fun hh => h (hh ▸ List.mem_cons_self p rest)
    have hr : ("..".toList) ∉ rest := fun hh => h (List.mem_cons_of_mem p hh)
    unfold resolve_from
    rw [if_neg hp, resolve_from_no_dotdot rest (acc ++ [p]) hr]
    simp

/-- Claim C5 counterexample: the entries src/x.py and x.py are distinct
relative paths sharing the basename x.py, yet they materialize to the same
sandbox destination, so a FileSet holding both does not produce two
distinct files. -/
theorem sandbox_distinct_basenames_counterexample :
    ("src/x.py".toList) ≠ ("x.py".toList) ∧
    (split_on '/' ("src/x.py".toList)).getLast? = some ("x.py".toList) ∧
    (split_on '/' ("x.py".toList)).getLast? = some ("x.py".toList) ∧
    materialize_code_path [] 0 ("src/x.py".toList) =
      materialize_code_path [] 1 ("x.py".toList) := by
  decide

/-- Claim C5 (amended): a leading src component is stripped (src/x.py and
x.py both land at T/src/x.py); filenames are sanitized — double-dot and
empty components and absolute-path markers are dropped — so every
materialized file resolves to a path extending the sandbox src directory;
and two entries whose sanitized relative paths differ materialize to
distinct destinations (entries that sanitize to the same relative path,
such as src/x.py and x.py, collapse to one file). -/
theorem sandbox_materialization_amended :
    (safe_relative_path ("src/x.py".toList) ("src".toList) (fallback_src_name 0)
        = [("x.py".toList)] ∧
     safe_relative_path ("x.py".toList) ("src".toList) (fallback_src_name 1)
        = [("x.py".toList)]) ∧
    (∀ (T : List Str) (idx : Nat) (fn : Str),
      resolve_from (T ++ [("src".toList)])
          (safe_relative_path fn ("src".toList) (fallback_src_name idx)) =
        materialize_code_path T idx fn ∧
      (T ++ [("src".toList)]) <+:
        resolve_from (T ++ [("src".toList)])
          (safe_relative_path fn ("src".toList) (fallback_src_name idx))) ∧
    (∀ (T : List Str) (i1 i2 : Nat) (f1 f2 : Str),
      safe_relative_path f1 ("src".toList) (fallback_src_name i1) ≠
        safe_relative_path f2 ("src".toList) (fallback_src_name i2) →
      materialize_code_path T i1 f1 ≠ materialize_code_path T i2 f2) := by
  refine ⟨by decide, ?_, ?_⟩
  · intro T idx fn
    have hres := resolve_from_no_dotdot
      (safe_relative_path fn ("src".toList) (fallback_src_name idx))
      (T ++ [("src".toList)]) (safe_relative_path_no_dotdot fn ("src".toList) idx)
    constructor
    · rw [hres]
      unfold materialize_code_path
      simp
    · rw [hres]
      exact ⟨_, rfl⟩
  · intro T i1 i2 f1 f2 hne heq
    unfold materialize_code_path at heq
    rw [List.append_assoc, List.append_assoc] at heq
    exact hne (List.append_cancel_left (List.append_cancel_left heq))

/-- Witness for the amended claim C5 theorem at concrete inputs. -/
theorem sandbox_materialization_amended_witness :
    (materialize_code_path [("tmp".toList)] 0 ("a/util.py".toList) ≠
      materialize_code_path [("tmp".toList)] 1 ("b/util.py".toList)) ∧
    ([("tmp".toList), ("src".toList)] <+:
      resolve_from [("tmp".toList), ("src".toList)]
        (safe_relative_path ("../x.py".toList) ("src".toList) (fallback_src_name 0))) :=
  ⟨(sandbox_materialization_amended.2.2 [("tmp".toList)] 0 1
      ("a/util.py".toList) ("b/util.py".toList) (by decide)),
   ((sandbox_materialization_amended.2.1 [("tmp".toList)] 0 ("../x.py".toList)).2)⟩

/-! Port allocation lemmas. -/

/-- A successful scan returns the first unclaimed bindable port of the
range. -/
theorem scan_ports_some (used : List Nat) (bindable : Nat → Bool) :
    ∀ (span start p : Nat), scan_ports used bindable start span = some p →
      p ∉ used ∧ bindable p = true ∧ start ≤ p ∧ p < start + span ∧
        ∀ q, start ≤ q → q < p → q ∈ used ∨ bindable q = false
  | 0, start, p, h => by simp [scan_ports] at h
  | n + 1, start, p, h => by
    unfold scan_ports at h
    by_cases hu : start ∈ used
    · rw [if_pos hu] at h
      rcases scan_ports_some used bindable n (start + 1) p h with
        ⟨h1, h2, h3, h4, h5⟩
      refine ⟨h1, h2, by omega, by omega, ?_⟩
      intro q hq1 hq2
      by_cases hq : q = start
      · exact Or.inl (hq ▸ hu)
      · exact h5 q (by omega) hq2
    · rw [if_neg hu] at h
      by_cases hb : bindable start = true
      · rw [if_pos hb] at h
        cases h
        exact ⟨hu, hb, le_refl _, by omega, fun q hq1 hq2 => absurd hq1 (by omega)⟩
      · rw [if_neg hb] at h
        rcases scan_ports_some used bindable n (start + 1) p h with
          ⟨h1, h2, h3, h4, h5⟩
        refine ⟨h1, h2, by omega, by omega, ?_⟩
        intro q hq1 hq2
        by_cases hq : q = start
        · exact Or.inr (hq ▸ Bool.of_not_eq_true hb)
        · exact h5 q (by omega) hq2

/-- The scan fails exactly when every port of the range is claimed or not
bindable. -/
theorem scan_ports_none (used : List Nat) (bindable : Nat → Bool) :
    ∀ (span start : Nat), scan_ports used bindable start span = none ↔
      ∀ p, start ≤ p → p < start + span → p ∈ used ∨ bindable p = false
  | 0, start => by
    simp only [scan_ports]
    constructor
    · intro _ p hp1 hp2
      exact absurd hp2 (by omega)
    · intro _
      trivial
  | n + 1, start => by
    unfold scan_ports
    by_cases hu : start ∈ used
    · rw [if_pos hu, scan_ports_none used bindable n (start + 1)]
      constructor
      · intro h p hp1 hp2
        by_cases hp : p = start
        · exact Or.inl (hp ▸ hu)
        · exact h p (by omega) (by omega)
      · intro h p hp1 hp2
        exact h p (by omega) (by omega)
    · rw [if_neg hu]
      by_cases hb : bindable start = true
      · rw [if_pos hb]
        constructor
        · intro h
          cases h
        · intro h
          rcases h start (le_refl _) (by omega) with hc | hc
          · exact absurd hc hu
          · rw [hb] at hc
            cases hc
      · rw [if_neg hb, scan_ports_none used bindable n (start + 1)]
        constructor
        · intro h p hp1 hp2
          by_cases hp : p = start
          · exact Or.inr (hp ▸ Bool.of_not_eq_true hb)
          · exact h p (by omega) (by omega)
        · intro h p hp1 hp2
          exact h p (by omega) (by omega)

/-- A fresh allocator-based launch claims an unused port and records it. -/
theorem launch_fresh_alloc (cfg : SidecarConfig) (w : SidecarWorld)
    (st : SidecarState) (name : Str) (st2 : SidecarState) (p : Nat)
    (h : launch_fresh cfg w st name none = (st2, .ok p)) :
    p ∉ st.used_ports ∧ st2.used_ports = p :: st.used_ports ∧
      name ∈ st2.launched_servers := by
  unfold launch_fresh at h
  by_cases hcap : cfg.max_per_run ≤ st.managed.length
  · rw [if_pos hcap] at h
    cases h
  · rw [if_neg hcap] at h
    by_cases hinst : w.install_ok = false
    · rw [if_pos hinst] at h
      cases h
    · rw [if_neg hinst] at h
      dsimp only at h
      rcases halloc : allocate_port st.used_ports w.bindable cfg.base_port cfg.port_span with
        _ | q
      · rw [halloc] at h
        cases h
      · rw [halloc] at h
        dsimp only at h
        by_cases hh : w.healthy = true
        · rw [if_pos hh] at h
          rcases Prod.mk.injEq .. ▸ h with ⟨hst, hp⟩
          have hq : q = p := by
            have := congrArg (fun e => match e with | Except.ok v => v | _ => 0) hp
            simpa using this
          subst hq
          rcases scan_ports_some st.used_ports w.bindable cfg.port_span cfg.base_port q
            halloc with ⟨h1, _, _, _, _⟩
          subst hst
          exact ⟨h1, rfl, List.mem_cons_self _ _⟩
        · rw [if_neg hh] at h
          cases h

/-- A successful launch of a server the manager does not already hold, with
no explicit sidecar port, goes through launch_fresh. -/
theorem launch_sidecar_ok_fresh (cfg : SidecarConfig) (w : SidecarWorld)
    (st : SidecarState) (name : Str) (st2 : SidecarState) (p : Nat)
    (hlook : st.managed.lookup name = none)
    (h : launch_sidecar cfg w st name none = (st2, .ok p)) :
    p ∉ st.used_ports ∧ st2.used_ports = p :: st.used_ports ∧
      name ∈ st2.launched_servers := by
  unfold launch_sidecar at h
  by_cases hen : cfg.enabled = false
  · rw [if_pos hen] at h
    cases h
  · rw [if_neg hen] at h
    by_cases hq : name ∈ st.failed_servers
    · rw [if_pos hq] at h
      cases h
    · rw [if_neg hq] at h
      rw [hlook] at h
      exact launch_fresh_alloc cfg w st name st2 p h

/-- Claim C8 counterexample: two distinct servers that both carry the
explicit sidecar_port 9100 are both launched on port 9100 — the explicit
port bypasses the used-port check of the allocator, so the manager does
allocate the same TCP port to two launched sidecars within one run. -/
theorem sidecar_duplicate_port_counterexample :
    (launch_sidecar sample_sidecar_config permissive_sidecar_world sidecar_initial_state
      ("a".toList) (some 9100)).2 = .ok 9100 ∧
    sidecar_state_after_a.launched_servers = [("a".toList)] ∧
    (launch_sidecar sample_sidecar_config permissive_sidecar_world sidecar_state_after_a
      ("b".toList) (some 9100)).2 = .ok 9100 ∧
    (launch_sidecar sample_sidecar_config permissive_sidecar_world sidecar_state_after_a
      ("b".toList) (some 9100)).1.launched_servers = [("b".toList), ("a".toList)] := by
  decide

/-- Claim C8 (amended): port allocation is the claimed linear first-fit
scan over base_port .. base_port + port_span - 1, skipping ports already
claimed by the manager and ports that are not bindable, and failing exactly
when no port qualifies; every fresh allocator-based launch claims a port
unused so far and records it, so two fresh launches of servers without an
explicit sidecar_port never receive the same port — only an explicit
non-zero sidecar_port can bypass the used-port check. -/
theorem sidecar_port_allocation_amended :
    (∀ (used : List Nat) (bindable : Nat → Bool) (base span p : Nat),
      allocate_port used bindable base span = some p →
        p ∉ used ∧ bindable p = true ∧ base ≤ p ∧ p < base + span ∧
          ∀ q, base ≤ q → q < p → q ∈ used ∨ bindable q = false) ∧
    (∀ (used : List Nat) (bindable : Nat → Bool) (base span : Nat),
      allocate_port used bindable base span = none ↔
        ∀ p, base ≤ p → p < base + span → p ∈ used ∨ bindable p = false) ∧
    (∀ (cfg : SidecarConfig) (w : SidecarWorld) (st : SidecarState)
        (name : Str) (st2 : SidecarState) (p : Nat),
      st.managed.lookup name = none →
      launch_sidecar cfg w st name none = (st2, .ok p) →
        p ∉ st.used_ports ∧ st2.used_ports = p :: st.used_ports ∧
          name ∈ st2.launched_servers) ∧
    (∀ (cfg : SidecarConfig) (w1 w2 : SidecarWorld) (st0 st1 st2 : SidecarState)
        (n1 n2 : Str) (p1 p2 : Nat),
      st0.managed.lookup n1 = none →
      launch_sidecar cfg w1 st0 n1 none = (st1, .ok p1) →
      st1.managed.lookup n2 = none →
      launch_sidecar cfg w2 st1 n2 none = (st2, .ok p2) →
      p1 ≠ p2) := by
  refine ⟨?_, ?_, ?_, ?_⟩
  · intro used bindable base span p h
    exact scan_ports_some used bindable span base p h
  · intro used bindable base span
    exact scan_ports_none used bindable span base
  · intro cfg w st name st2 p hlook h
    exact launch_sidecar_ok_fresh cfg w st name st2 p hlook h
  · intro cfg w1 w2 st0 st1 st2 n1 n2 p1 p2 h1look h1 h2look h2
    rcases launch_sidecar_ok_fresh cfg w1 st0 n1 st1 p1 h1look h1 with ⟨_, hused1, _⟩
    rcases launch_sidecar_ok_fresh cfg w2 st1 n2 st2 p2 h2look h2 with ⟨hfree2, _, _⟩
    intro hpe
    rw [hused1] at hfree2
    exact hfree2 (hpe ▸ List.mem_cons_self p1 st0.used_ports)

/-- Witness for the amended claim C8 theorem: a first-fit allocation at a
concrete range, and two fresh launches receiving the distinct ports 9000
and 9001. -/
theorem sidecar_port_allocation_amended_witness :
    ((9000 : Nat) ∉ ([] : List Nat) ∧ (fun _ => true : Nat → Bool) 9000 = true ∧
      9000 ≤ 9000 ∧ 9000 < 9000 + 50 ∧
      ∀ q, 9000 ≤ q → q < 9000 → q ∈ ([] : List Nat) ∨ (fun _ => true : Nat → Bool) q = false) ∧
    ((9000 : Nat) ≠ 9001) := by
  constructor
  · exact sidecar_port_allocation_amended.1 [] (fun _ => true) 9000 50 9000 (by decide)
  · exact sidecar_port_allocation_amended.2.2.2 sample_sidecar_config
      permissive_sidecar_world permissive_sidecar_world sidecar_initial_state
      (launch_sidecar sample_sidecar_config permissive_sidecar_world sidecar_initial_state
        ("a".toList) none).1
      (launch_sidecar sample_sidecar_config permissive_sidecar_world
        (launch_sidecar sample_sidecar_config permissive_sidecar_world sidecar_initial_state
          ("a".toList) none).1 ("b".toList) none).1
      ("a".toList) ("b".toList) 9000 9001 (by decide) (by decide) (by decide) (by decide)

/-! TestResult invariant lemmas for every producer in the pipeline. -/

/-- The parser assembly always satisfies both invariants: total is defined
as passed + failed, and all_passed as the strict flag rule. -/
theorem parse_pytest_output_invariants (o : PytestStdout) :
    result_sum_ok (parse_pytest_output o) ∧ result_flag_ok (parse_pytest_output o) :=
  ⟨rfl, rfl⟩

/-- The completed branch of run_tests keeps both invariants: the non-zero
exit fixup raises total to exactly passed + 1 when it forces failed to 1. -/
theorem run_tests_completed_invariants (rc : Int) (o : PytestStdout) :
    result_sum_ok (run_tests (.completed rc o)) ∧
    result_flag_ok (run_tests (.completed rc o)) := by
  have hsum : result_sum_ok (parse_pytest_output o) := rfl
  by_cases h0 : rc = 0
  · subst h0
    show result_sum_ok (parse_pytest_output o) ∧ result_flag_ok (parse_pytest_output o)
    exact ⟨rfl, rfl⟩
  · by_cases hf : (parse_pytest_output o).failed = 0
    · have hcond : (rc ≠ 0 ∧ (parse_pytest_output o).failed = 0) := ⟨h0, hf⟩
      constructor
      · unfold run_tests result_sum_ok
        dsimp only
        rw [if_pos hcond, if_pos h0]
        dsimp only
        have ht : (parse_pytest_output o).total_tests = (parse_pytest_output o).passed := by
          unfold result_sum_ok at hsum
          omega
        rw [ht]
        exact (Nat.max_eq_right (Nat.le_succ _)).symm
      · unfold run_tests result_flag_ok
        dsimp only
        rw [if_pos hcond, if_pos h0]
        rfl
    · have hcond : ¬ (rc ≠ 0 ∧ (parse_pytest_output o).failed = 0) :=
        fun hx => hf hx.2
      constructor
      · unfold run_tests result_sum_ok
        dsimp only
        rw [if_neg hcond, if_pos h0]
        exact hsum
      · unfold run_tests result_flag_ok
        dsimp only
        rw [if_neg hcond, if_pos h0]
        have hb : ((parse_pytest_output o).failed == 0) = false := by
          simp [hf]
        dsimp only
        rw [hb]
        rfl

/-- A run_mcp_tests result over a plan with steps satisfies both
invariants by construction of its final assembly. -/
theorem run_mcp_tests_invariants (plan : MCPTestPlan) (hm : Bool)
    (su : Nat → StartupOutcome) (w : Nat → StepWorld)
    (qs : List StepKey) (qv : List Str) (h : plan.steps ≠ []) :
    result_sum_ok (run_mcp_tests plan hm su w qs qv).1 ∧
    result_flag_ok (run_mcp_tests plan hm su w qs qv).1 := by
  unfold run_mcp_tests
  rw [if_neg h]
  exact ⟨rfl, rfl⟩

/-- A run_mcp_tests call over a plan with no steps returns the neutral
result. -/
theorem run_mcp_tests_empty (plan : MCPTestPlan) (hm : Bool)
    (su : Nat → StartupOutcome) (w : Nat → StepWorld)
    (qs : List StepKey) (qv : List Str) (h : plan.steps = []) :
    (run_mcp_tests plan hm su w qs qv).1 = empty_results := by
  unfold run_mcp_tests
  rw [if_pos h]

/-- Merging keeps the sum invariant and recomputes the flag invariant. -/
theorem merge_results_invariants (u m : TestResult)
    (hu : result_sum_ok u) (hm2 : result_sum_ok m) :
    result_sum_ok (merge_results u m) ∧ result_flag_ok (merge_results u m) := by
  constructor
  · unfold result_sum_ok at hu hm2 ⊢
    unfold merge_results
    dsimp only
    omega
  · rfl

/-- run_all keeps the sum invariant whenever both halves carry it. -/
theorem run_all_sum (tf : Bool) (u : TestResult) (p : Option MCPTestPlan)
    (m : TestResult) (hu : result_sum_ok u) (hm2 : result_sum_ok m) :
    result_sum_ok (run_all tf u p m) := by
  have hunit : result_sum_ok (if tf then u else empty_results) := by
    cases tf
    · exact rfl
    · exact hu
  unfold run_all
  cases p with
  | none => exact hunit
  | some pl =>
    dsimp only
    by_cases hs : pl.steps ≠ []
    · rw [if_pos hs]
      exact (merge_results_invariants _ m hunit hm2).1
    · rw [if_neg hs]
      exact hunit

/-- Claim C1 counterexample: the sandbox timeout result has passed + failed
= 1 with total_tests = 0, so the sum invariant fails there, and the neutral
empty result has all_passed = true with total_tests = 0, so the flag
invariant fails there. -/
theorem testresult_invariants_counterexample :
    ¬ result_sum_ok (run_tests .timeout) ∧
    (run_tests .timeout).passed + (run_tests .timeout).failed = 1 ∧
    (run_tests .timeout).total_tests = 0 ∧
    ¬ result_flag_ok empty_results ∧
    empty_results.all_passed = true ∧
    empty_results.total_tests = 0 := by
  decide

/-- run_all with a non-empty test FileSet and a plan that has steps merges
the unit half with the MCP half. -/
theorem run_all_merge_unit (u m : TestResult) (plan : MCPTestPlan)
    (h : plan.steps ≠ []) :
    run_all true u (some plan) m = merge_results u m := by
  unfold run_all
  dsimp only
  rw [if_pos h]
  rfl

/-- run_all with an empty test FileSet and a plan that has steps merges the
neutral result with the MCP half. -/
theorem run_all_merge_empty (u m : TestResult) (plan : MCPTestPlan)
    (h : plan.steps ≠ []) :
    run_all false u (some plan) m = merge_results empty_results m := by
  unfold run_all
  dsimp only
  rw [if_pos h]
  rfl

/-- run_all without a plan that has steps returns the unit half unchanged
(the neutral result when the test FileSet is empty). -/
theorem run_all_no_merge (tf : Bool) (u m : TestResult)
    (plan : Option MCPTestPlan) (hp : ∀ p, plan = some p → p.steps = []) :
    run_all tf u plan m = if tf then u else empty_results := by
  cases plan with
  | none => rfl
  | some p =>
    have hps := hp p rfl
    simp [run_all, hps]

/-- Claim C1 (amended): every TestResult the pipeline produces satisfies
all_passed = (failed == 0 and total_tests > 0) except the neutral empty
results and the pregnancy child-success result, which have all_passed =
true with total_tests = 0; and satisfies passed + failed = total_tests
except when the sandbox run timed out — the timeout result itself has
passed + failed = 1 with total_tests = 0, and when run_all merges a
timed-out unit half with an MCP half the defect carries over, giving
passed + failed = total_tests + 1. -/
theorem testresult_invariants_amended :
    (∀ o : PytestStdout,
      result_sum_ok (parse_pytest_output o) ∧ result_flag_ok (parse_pytest_output o)) ∧
    (∀ (rc : Int) (o : PytestStdout),
      result_sum_ok (run_tests (.completed rc o)) ∧
      result_flag_ok (run_tests (.completed rc o))) ∧
    ((run_tests .timeout).passed + (run_tests .timeout).failed = 1 ∧
      (run_tests .timeout).total_tests = 0 ∧ result_flag_ok (run_tests .timeout)) ∧
    (result_sum_ok empty_results ∧ empty_results.all_passed = true ∧
      empty_results.total_tests = 0) ∧
    (∀ (plan : MCPTestPlan) (hm : Bool) (su : Nat → StartupOutcome)
        (w : Nat → StepWorld) (qs : List StepKey) (qv : List Str),
      (plan.steps ≠ [] →
        result_sum_ok (run_mcp_tests plan hm su w qs qv).1 ∧
        result_flag_ok (run_mcp_tests plan hm su w qs qv).1) ∧
      (plan.steps = [] → (run_mcp_tests plan hm su w qs qv).1 = empty_results)) ∧
    (∀ u m : TestResult,
      (merge_results u m).passed + (merge_results u m).failed =
        (u.passed + u.failed) + (m.passed + m.failed) ∧
      (merge_results u m).total_tests = u.total_tests + m.total_tests ∧
      result_flag_ok (merge_results u m)) ∧
    (∀ (plan : MCPTestPlan) (hm : Bool) (su : Nat → StartupOutcome)
        (w : Nat → StepWorld) (qs : List StepKey) (qv : List Str),
      plan.steps ≠ [] →
      (run_all true (run_tests .timeout) (some plan)
          (run_mcp_tests plan hm su w qs qv).1).passed +
        (run_all true (run_tests .timeout) (some plan)
          (run_mcp_tests plan hm su w qs qv).1).failed =
        (run_all true (run_tests .timeout) (some plan)
          (run_mcp_tests plan hm su w qs qv).1).total_tests + 1 ∧
      result_flag_ok (run_all true (run_tests .timeout) (some plan)
        (run_mcp_tests plan hm su w qs qv).1)) ∧
    (∀ (rc : Int) (o : PytestStdout) (plan : MCPTestPlan) (hm : Bool)
        (su : Nat → StartupOutcome) (w : Nat → StepWorld)
        (qs : List StepKey) (qv : List Str),
      plan.steps ≠ [] →
      result_sum_ok (run_all true (run_tests (.completed rc o)) (some plan)
        (run_mcp_tests plan hm su w qs qv).1) ∧
      result_flag_ok (run_all true (run_tests (.completed rc o)) (some plan)
        (run_mcp_tests plan hm su w qs qv).1)) ∧
    (∀ (u : TestResult) (plan : MCPTestPlan) (hm : Bool)
        (su : Nat → StartupOutcome) (w : Nat → StepWorld)
        (qs : List StepKey) (qv : List Str),
      plan.steps ≠ [] →
      result_sum_ok (run_all false u (some plan)
        (run_mcp_tests plan hm su w qs qv).1) ∧
      result_flag_ok (run_all false u (some plan)
        (run_mcp_tests plan hm su w qs qv).1)) ∧
    (∀ (tf : Bool) (u m : TestResult) (plan : Option MCPTestPlan),
      (∀ p, plan = some p → p.steps = []) →
      run_all tf u plan m = if tf then u else empty_results) ∧
    (∀ (et em : Str) (dp md : Nat),
      (pregnancy_failure_result et em dp md).passed +
          (pregnancy_failure_result et em dp md).failed =
        (pregnancy_failure_result et em dp md).total_tests ∧
      (pregnancy_failure_result et em dp md).all_passed = false ∧
      (pregnancy_failure_result et em dp md).total_tests = 1) ∧
    (∀ (depth : Nat) (m : Int) (d : CapabilityDecision) (seen : List Str) (so se : Str),
      ((depth : Int) + 1 ≤ m) → capability_signature d ∉ seen →
      (delegate_to_child_builder depth m d seen (.exited 0 so se)).1.all_passed = true ∧
      (delegate_to_child_builder depth m d seen (.exited 0 so se)).1.total_tests = 0 ∧
      (delegate_to_child_builder depth m d seen (.exited 0 so se)).1.passed = 0 ∧
      (delegate_to_child_builder depth m d seen (.exited 0 so se)).1.failed = 0) := by
  refine ⟨parse_pytest_output_invariants, run_tests_completed_invariants,
    ⟨rfl, rfl, rfl⟩, ⟨rfl, rfl, rfl⟩, ?_, ?_, ?_, ?_, ?_, run_all_no_merge,
    fun et em dp md => ⟨rfl, rfl, rfl⟩, ?_⟩
  · intro plan hm su w qs qv
    exact ⟨run_mcp_tests_invariants plan hm su w qs qv,
      run_mcp_tests_empty plan hm su w qs qv⟩
  · intro u m
    refine ⟨?_, rfl, rfl⟩
    unfold merge_results
    dsimp only
    omega
  · intro plan hm su w qs qv h
    rw [run_all_merge_unit _ _ plan h]
    have hmcp := (run_mcp_tests_invariants plan hm su w qs qv h).1
    unfold result_sum_ok at hmcp
    constructor
    · have h1 : (run_tests .timeout).passed = 0 := rfl
      have h2 : (run_tests .timeout).failed = 1 := rfl
      have h3 : (run_tests .timeout).total_tests = 0 := rfl
      unfold merge_results
      dsimp only
      rw [h1, h2, h3]
      omega
    · rfl
  · intro rc o plan hm su w qs qv h
    rw [run_all_merge_unit _ _ plan h]
    exact merge_results_invariants _ _ (run_tests_completed_invariants rc o).1
      (run_mcp_tests_invariants plan hm su w qs qv h).1
  · intro u plan hm su w qs qv h
    rw [run_all_merge_empty _ _ plan h]
    exact merge_results_invariants _ _ rfl
      (run_mcp_tests_invariants plan hm su w qs qv h).1
  · intro depth m d seen so se hdep hsig
    have h1 : ¬ depth + 1 > (max 0 m).toNat := by
      intro hg
      exact absurd ((depth_guard_iff depth m).mpr hg) (not_lt_of_ge hdep)
    rcases delegate_spawns depth m d seen (.exited 0 so se) h1 hsig with ⟨_, _, _, hs⟩
    rw [hs so se rfl]
    exact ⟨rfl, rfl, rfl, rfl⟩

/-- Witness for the amended claim C1 theorem at concrete inputs: the
completed-run invariants at a non-zero exit, the defect equation for the
merge of a timed-out unit half with a concrete one-step MCP half, and the
passing child-success shape. -/
theorem testresult_invariants_amended_witness :
    (result_sum_ok (run_tests (.completed 1 sample_pytest_stdout)) ∧
      result_flag_ok (run_tests (.completed 1 sample_pytest_stdout))) ∧
    ((run_all true (run_tests .timeout)
        (some { servers := [], steps := [sample_step], reason := [] })
        (run_mcp_tests { servers := [], steps := [sample_step], reason := [] }
          false (fun _ => { ok := true, etype := [], emsg := [] })
          (fun _ => sample_world) [] []).1).passed +
      (run_all true (run_tests .timeout)
        (some { servers := [], steps := [sample_step], reason := [] })
        (run_mcp_tests { servers := [], steps := [sample_step], reason := [] }
          false (fun _ => { ok := true, etype := [], emsg := [] })
          (fun _ => sample_world) [] []).1).failed =
      (run_all true (run_tests .timeout)
        (some { servers := [], steps := [sample_step], reason := [] })
        (run_mcp_tests { servers := [], steps := [sample_step], reason := [] }
          false (fun _ => { ok := true, etype := [], emsg := [] })
          (fun _ => sample_world) [] []).1).total_tests + 1) ∧
    (delegate_to_child_builder 0 5 long_reason_decision [] (.exited 0 [] [])).1.all_passed
      = true :=
  ⟨testresult_invariants_amended.2.1 1 sample_pytest_stdout,
   (testresult_invariants_amended.2.2.2.2.2.2.1
      { servers := [], steps := [sample_step], reason := [] } false
      (fun _ => { ok := true, etype := [], emsg := [] }) (fun _ => sample_world) [] []
      (by simp)).1,
   (testresult_invariants_amended.2.2.2.2.2.2.2.2.2.2.2 0 5 long_reason_decision [] [] []
      (by decide) (by decide)).1⟩

/-! Quarantine lemmas for the MCP step loop. -/

/-- record_failure places the key and the server at the head of the
quarantine sets. -/
theorem record_failure_mem (st : ExecState) (k : StepKey) (step : MCPTestStep)
    (et em : Str) :
    (record_failure st k step et em).q_steps = k :: st.q_steps ∧
    (record_failure st k step et em).q_servers = step.server :: st.q_servers :=
  ⟨rfl, rfl⟩

/-- The call phase never removes quarantine entries, and whenever it ends
in a failing verdict it has quarantined both the key and the server. -/
theorem exec_call_phase_cases (w : StepWorld) (st : ExecState) (k : StepKey)
    (step : MCPTestStep) :
    (∀ x, x ∈ st.q_steps → x ∈ (exec_call_phase w st k step).1.q_steps) ∧
    (∀ x, x ∈ st.q_servers → x ∈ (exec_call_phase w st k step).1.q_servers) ∧
    (∀ et em, (exec_call_phase w st k step).2.2 = .fail et em →
      k ∈ (exec_call_phase w st k step).1.q_steps ∧
      step.server ∈ (exec_call_phase w st k step).1.q_servers) := by
  unfold exec_call_phase finish_call
  by_cases hr : step.server ∈ st.dynamic_call_seen ∧ step.server ∈ st.dynamic_provisioned
  all_goals first
    | rw [if_pos hr]
    | rw [if_neg hr]
  all_goals
    cases hc1 : w.call1 with
    | ok text =>
      dsimp only
      by_cases ha : assert_text_ok step.expected text = true
      · rw [if_pos ha]
        refine ⟨fun x hx => hx, fun x hx => hx, ?_⟩
        intro et em hv
        exact absurd hv (by simp)
      · rw [if_neg ha]
        exact ⟨fun x hx => List.mem_cons_of_mem _ hx,
          fun x hx => List.mem_cons_of_mem _ hx,
          fun et em _ => ⟨List.mem_cons_self _ _, List.mem_cons_self _ _⟩⟩
    | exc et1 em1 =>
      dsimp only
      by_cases hj : step.server ∈ st.dynamic_provisioned ∧ step.server ∉ st.dynamic_call_seen
      · rw [if_pos hj]
        cases hc2 : w.call2 with
        | ok text =>
          dsimp only
          by_cases ha : assert_text_ok step.expected text = true
          · rw [if_pos ha]
            refine ⟨fun x hx => hx, fun x hx => hx, ?_⟩
            intro et em hv
            exact absurd hv (by simp)
          · rw [if_neg ha]
            exact ⟨fun x hx => List.mem_cons_of_mem _ hx,
              fun x hx => List.mem_cons_of_mem _ hx,
              fun et em _ => ⟨List.mem_cons_self _ _, List.mem_cons_self _ _⟩⟩
        | exc et2 em2 =>
          exact ⟨fun x hx => List.mem_cons_of_mem _ hx,
            fun x hx => List.mem_cons_of_mem _ hx,
            fun et em _ => ⟨List.mem_cons_self _ _, List.mem_cons_self _ _⟩⟩
      · rw [if_neg hj]
        exact ⟨fun x hx => List.mem_cons_of_mem _ hx,
          fun x hx => List.mem_cons_of_mem _ hx,
          fun et em _ => ⟨List.mem_cons_self _ _, List.mem_cons_self _ _⟩⟩

/-- A step whose server or key is quarantined is skipped: the state is only
bumped, no tool call is invoked, and the verdict is the quarantine skip. -/
theorem process_step_skip (env : MCPEnv) (st : ExecState) (i : Nat)
    (s : MCPTestStep)
    (h : s.server ∈ st.q_servers ∨ step_key s ∈ st.q_steps) :
    process_step env st i s = (skip_bump st, 0, .skipq) := by
  unfold process_step
  rcases h with h | h
  · rw [if_pos h]
  · by_cases hs : s.server ∈ st.q_servers
    · rw [if_pos hs]
    · rw [if_neg hs]
      dsimp only
      rw [if_pos h]

/-- One processed step never removes quarantine entries. -/
theorem process_step_mono (env : MCPEnv) (st : ExecState) (i : Nat)
    (s : MCPTestStep) :
    (∀ x, x ∈ st.q_steps → x ∈ (process_step env st i s).1.q_steps) ∧
    (∀ x, x ∈ st.q_servers → x ∈ (process_step env st i s).1.q_servers) := by
  unfold process_step
  by_cases h1 : s.server ∈ st.q_servers
  · rw [if_pos h1]
    exact ⟨fun x hx => hx, fun x hx => hx⟩
  · rw [if_neg h1]
    dsimp only
    by_cases h2 : step_key s ∈ st.q_steps
    · rw [if_pos h2]
      exact ⟨fun x hx => hx, fun x hx => hx⟩
    · rw [if_neg h2]
      cases hls : lookup_server env.servers s.server with
      | none =>
        exact ⟨fun x hx => List.mem_cons_of_mem _ hx,
          fun x hx => List.mem_cons_of_mem _ hx⟩
      | some server =>
        dsimp only
        by_cases h3 : s.server ∉ st.procs ∧ can_lazy_provision server = true
        · rw [if_pos h3]
          by_cases h4 : env.has_manager = false
          · rw [if_pos h4]
            exact ⟨fun x hx => List.mem_cons_of_mem _ hx,
              fun x hx => List.mem_cons_of_mem _ hx⟩
          · rw [if_neg h4]
            cases hp : (env.world i).provision with
            | exc et em =>
              exact ⟨fun x hx => List.mem_cons_of_mem _ hx,
                fun x hx => List.mem_cons_of_mem _ hx⟩
            | ok =>
              exact ⟨fun x hx => (exec_call_phase_cases _ _ _ _).1 x hx,
                fun x hx => (exec_call_phase_cases _ _ _ _).2.1 x hx⟩
        · rw [if_neg h3]
          by_cases h5 : s.server ∉ st.procs
          · rw [if_pos h5]
            cases hse : (env.startup_errors.map (fun e => (e.1, e.2))).lookup s.server with
            | none =>
              exact ⟨fun x hx => List.mem_cons_of_mem _ hx,
                fun x hx => List.mem_cons_of_mem _ hx⟩
            | some pr =>
              cases pr with
              | mk et em =>
                exact ⟨fun x hx => List.mem_cons_of_mem _ hx,
                  fun x hx => List.mem_cons_of_mem _ hx⟩
          · rw [if_neg h5]
            exact ⟨fun x hx => (exec_call_phase_cases _ _ _ _).1 x hx,
              fun x hx => (exec_call_phase_cases _ _ _ _).2.1 x hx⟩

/-- Every failing verdict of a processed step leaves both the step key and
the step's server quarantined. -/
theorem process_step_fail (env : MCPEnv) (st : ExecState) (i : Nat)
    (s : MCPTestStep) (et em : Str)
    (h : (process_step env st i s).2.2 = .fail et em) :
    step_key s ∈ (process_step env st i s).1.q_steps ∧
    s.server ∈ (process_step env st i s).1.q_servers := by
  unfold process_step at h ⊢
  by_cases h1 : s.server ∈ st.q_servers
  · rw [if_pos h1] at h
    exact absurd h (by simp)
  · rw [if_neg h1] at h ⊢
    dsimp only at h ⊢
    by_cases h2 : step_key s ∈ st.q_steps
    · rw [if_pos h2] at h
      exact absurd h (by simp)
    · rw [if_neg h2] at h ⊢
      cases hls : lookup_server env.servers s.server with
      | none =>
        exact ⟨List.mem_cons_self _ _, List.mem_cons_self _ _⟩
      | some server =>
        rw [hls] at h
        dsimp only at h ⊢
        by_cases h3 : s.server ∉ st.procs ∧ can_lazy_provision server = true
        · rw [if_pos h3] at h ⊢
          by_cases h4 : env.has_manager = false
          · rw [if_pos h4] at h ⊢
            exact ⟨List.mem_cons_self _ _, List.mem_cons_self _ _⟩
          · rw [if_neg h4] at h ⊢
            cases hp : (env.world i).provision with
            | exc pet pem =>
              rw [hp] at h
              exact ⟨List.mem_cons_self _ _, List.mem_cons_self _ _⟩
            | ok =>
              rw [hp] at h
              exact (exec_call_phase_cases _ _ _ _).2.2 et em h
        · rw [if_neg h3] at h ⊢
          by_cases h5 : s.server ∉ st.procs
          · rw [if_pos h5] at h ⊢
            cases hse : (env.startup_errors.map (fun e => (e.1, e.2))).lookup s.server with
            | none =>
              exact ⟨List.mem_cons_self _ _, List.mem_cons_self _ _⟩
            | some pr =>
              cases pr with
              | mk set2 sem2 =>
                exact ⟨List.mem_cons_self _ _, List.mem_cons_self _ _⟩
          · rw [if_neg h5] at h ⊢
            exact (exec_call_phase_cases _ _ _ _).2.2 et em h

/-- A step that invokes the tool at least once was not quarantined when its
processing began. -/
theorem process_step_invoke (env : MCPEnv) (st : ExecState) (i : Nat)
    (s : MCPTestStep) (h : 0 < (process_step env st i s).2.1) :
    step_key s ∉ st.q_steps ∧ s.server ∉ st.q_servers := by
  by_cases h1 : s.server ∈ st.q_servers
  · rw [process_step_skip env st i s (Or.inl h1)] at h
    exact absurd h (by simp)
  · by_cases h2 : step_key s ∈ st.q_steps
    · rw [process_step_skip env st i s (Or.inr h2)] at h
      exact absurd h (by simp)
    · exact ⟨h2, h1⟩

/-- One step's event chunk is its invocations followed by its verdict. -/
theorem chunk_events_length (k : StepKey) (n : Nat) (v : StepVerdict) :
    (chunk_events k n v).length = n + 1 := by
  unfold chunk_events
  simp

/-- A failure event in a chunk is the chunk's last event, carries the
chunk's key, and certifies a failing verdict. -/
theorem chunk_events_fail_at (k : StepKey) (n : Nat) (v : StepVerdict)
    (p : Nat) (k2 : StepKey)
    (h : (chunk_events k n v)[p]? = some (.step_failed k2)) :
    k2 = k ∧ p = n ∧ ∃ et em, v = .fail et em := by
  unfold chunk_events at h
  rw [List.getElem?_append, List.length_replicate] at h
  by_cases hp : p < n
  · rw [if_pos hp, List.getElem?_replicate, if_pos hp] at h
    exact absurd h (by simp)
  · rw [if_neg hp] at h
    rcases hd : p - n with _ | m
    · rw [hd] at h
      cases v with
      | skipq => exact absurd h (by simp)
      | fail et em =>
        simp only [List.getElem?_cons_zero, Option.some.injEq] at h
        cases h
        exact ⟨rfl, by omega, et, em, rfl⟩
      | ok => exact absurd h (by simp)
    · rw [hd] at h
      exact absurd h (by simp)

/-- An invocation event in a chunk carries the chunk's key and sits among
the first n positions. -/
theorem chunk_events_invoke_at (k : StepKey) (n : Nat) (v : StepVerdict)
    (q : Nat) (k2 : StepKey)
    (h : (chunk_events k n v)[q]? = some (.invoke k2)) :
    k2 = k ∧ q < n := by
  unfold chunk_events at h
  rw [List.getElem?_append, List.length_replicate] at h
  by_cases hq : q < n
  · rw [if_pos hq, List.getElem?_replicate, if_pos hq] at h
    simp only [Option.some.injEq] at h
    cases h
    exact ⟨rfl, hq⟩
  · rw [if_neg hq] at h
    rcases hd : q - n with _ | m
    · rw [hd] at h
      cases v <;> exact absurd h (by simp)
    · rw [hd] at h
      exact absurd h (by simp)

/-- Membership version: an invocation in a chunk means the chunk's step
actually invoked the tool. -/
theorem chunk_events_invoke_mem (k : StepKey) (n : Nat) (v : StepVerdict)
    (k2 : StepKey) (h : Ev.invoke k2 ∈ chunk_events k n v) :
    k2 = k ∧ 0 < n := by
  unfold chunk_events at h
  rcases List.mem_append.mp h with h | h
  · rcases List.mem_replicate.mp h with ⟨hn, he⟩
    cases he
    exact ⟨rfl, Nat.pos_of_ne_zero hn⟩
  · rcases List.mem_singleton.mp h with he
    cases v <;> exact absurd he (by simp)

/-- Quarantine sets only grow across the whole step loop. -/
theorem run_mcp_steps_mono (env : MCPEnv) :
    ∀ (steps : List MCPTestStep) (st : ExecState) (i : Nat) (x : StepKey),
      x ∈ st.q_steps → x ∈ (run_mcp_steps env st i steps).1.q_steps
  | [], _, _, _, hx => hx
  | s :: rest, st, i, x, hx =>
    run_mcp_steps_mono env rest (process_step env st i s).1 (i + 1) x
      ((process_step_mono env st i s).1 x hx)

/-- A step key quarantined at entry is never invoked anywhere in the rest
of the loop. -/
theorem no_invoke_of_quarantined (env : MCPEnv) :
    ∀ (steps : List MCPTestStep) (st : ExecState) (i : Nat) (k : StepKey),
      k ∈ st.q_steps → Ev.invoke k ∉ (run_mcp_steps env st i steps).2
  | [], st, i, k, hk => by
    intro hmem
    simp [run_mcp_steps] at hmem
  | s :: rest, st, i, k, hk => by
    intro hmem
    unfold run_mcp_steps at hmem
    dsimp only at hmem
    rcases List.mem_append.mp hmem with h | h
    · rcases chunk_events_invoke_mem _ _ _ _ h with ⟨he, hn⟩
      rcases process_step_invoke env st i s hn with ⟨hns, _⟩
      exact hns (he ▸ hk)
    · exact no_invoke_of_quarantined env rest (process_step env st i s).1 (i + 1) k
        ((process_step_mono env st i s).1 k hk) h

/-- A failure event anywhere in the loop leaves its key in the final
quarantine set. -/
theorem fail_in_q_steps (env : MCPEnv) :
    ∀ (steps : List MCPTestStep) (st : ExecState) (i p : Nat) (k : StepKey),
      (run_mcp_steps env st i steps).2[p]? = some (.step_failed k) →
      k ∈ (run_mcp_steps env st i steps).1.q_steps
  | [], st, i, p, k, hp => by
    simp [run_mcp_steps] at hp
  | s :: rest, st, i, p, k, hp => by
    unfold run_mcp_steps at hp ⊢
    dsimp only at hp ⊢
    rw [List.getElem?_append] at hp
    by_cases hpc : p < (chunk_events (step_key s) (process_step env st i s).2.1
        (process_step env st i s).2.2).length
    · rw [if_pos hpc] at hp
      rcases chunk_events_fail_at _ _ _ _ _ hp with ⟨he, _, et, em, hv⟩
      subst he
      exact run_mcp_steps_mono env rest (process_step env st i s).1 (i + 1)
        (step_key s) (process_step_fail env st i s et em hv).1
    · rw [if_neg hpc] at hp
      exact fail_in_q_steps env rest (process_step env st i s).1 (i + 1) _ k hp

/-- In the trace of the step loop, no invocation of a step key ever follows
a failure of the same key. -/
theorem no_invoke_after_fail (env : MCPEnv) :
    ∀ (steps : List MCPTestStep) (st : ExecState) (i p q : Nat) (k : StepKey),
      p < q →
      (run_mcp_steps env st i steps).2[p]? = some (.step_failed k) →
      (run_mcp_steps env st i steps).2[q]? ≠ some (.invoke k)
  | [], st, i, p, q, k, hpq, hp => by
    simp [run_mcp_steps] at hp
  | s :: rest, st, i, p, q, k, hpq, hp => by
    intro hq
    unfold run_mcp_steps at hp hq
    dsimp only at hp hq
    rw [List.getElem?_append] at hp hq
    by_cases hpc : p < (chunk_events (step_key s) (process_step env st i s).2.1
        (process_step env st i s).2.2).length
    · rw [if_pos hpc] at hp
      rcases chunk_events_fail_at _ _ _ _ _ hp with ⟨he, hpn, et, em, hv⟩
      subst he
      by_cases hqc : q < (chunk_events (step_key s) (process_step env st i s).2.1
          (process_step env st i s).2.2).length
      · rw [if_pos hqc] at hq
        rcases chunk_events_invoke_at _ _ _ _ _ hq with ⟨_, hqn⟩
        rw [chunk_events_length] at hqc
        omega
      · rw [if_neg hqc] at hq
        have hkq : Ev.invoke (step_key s) ∈
            (run_mcp_steps env (process_step env st i s).1 (i + 1) rest).2 :=
          List.getElem?_mem hq
        exact no_invoke_of_quarantined env rest (process_step env st i s).1 (i + 1)
          (step_key s) (process_step_fail env st i s et em hv).1 hkq
    · rw [if_neg hpc] at hp
      by_cases hqc : q < (chunk_events (step_key s) (process_step env st i s).2.1
          (process_step env st i s).2.2).length
      · omega
      · rw [if_neg hqc] at hq
        exact no_invoke_after_fail env rest (process_step env st i s).1 (i + 1)
          _ _ k (by omega) hp hq

/-- Claim C3: every step-failure path of the MCP step loop adds both the
step's canonical key and the step's server name to the quarantine sets; a
step whose server or key is quarantined is skipped without invoking the
tool and counted as passed; in any loop trace no invocation of a step key
ever follows a failure of that key; and a key that failed in one
run_mcp_steps call is never invoked in a later call that starts from the
resulting executor state. -/
theorem mcp_quarantine_claim (env : MCPEnv) (st : ExecState) (i : Nat)
    (steps : List MCPTestStep) :
    (∀ (s : MCPTestStep) (j : Nat) (et em : Str),
      (process_step env st j s).2.2 = .fail et em →
      step_key s ∈ (process_step env st j s).1.q_steps ∧
      s.server ∈ (process_step env st j s).1.q_servers) ∧
    (∀ (s : MCPTestStep) (j : Nat),
      s.server ∈ st.q_servers ∨ step_key s ∈ st.q_steps →
      process_step env st j s = (skip_bump st, 0, .skipq)) ∧
    (∀ (p q : Nat) (k : StepKey), p < q →
      (run_mcp_steps env st i steps).2[p]? = some (.step_failed k) →
      (run_mcp_steps env st i steps).2[q]? ≠ some (.invoke k)) ∧
    (∀ (env2 : MCPEnv) (steps2 : List MCPTestStep) (i2 p : Nat) (k : StepKey),
      (run_mcp_steps env st i steps).2[p]? = some (.step_failed k) →
      Ev.invoke k ∉
        (run_mcp_steps env2 (run_mcp_steps env st i steps).1 i2 steps2).2) :=
  ⟨fun s j et em h => process_step_fail env st j s et em h,
   fun s j h => process_step_skip env st j s h,
   fun p q k hpq hp => no_invoke_after_fail env steps st i p q k hpq hp,
   fun env2 steps2 i2 p k hp =>
     no_invoke_of_quarantined env2 steps2 (run_mcp_steps env st i steps).1 i2 k
       (fail_in_q_steps env steps st i p k hp)⟩

/-- Witness for claim C3 at concrete inputs: processing the sample step
against a quarantined server only bumps the counters, and in the two-step
trace where the sample step first fails (no configured server), position 1
holds no invocation of its key. -/
theorem mcp_quarantine_claim_witness :
    process_step sample_env exec_state_quarantined 0 sample_step =
      (skip_bump exec_state_quarantined, 0, .skipq) ∧
    (run_mcp_steps sample_env exec_state0 0 [sample_step, sample_step]).2[1]? ≠
      some (.invoke (step_key sample_step)) ∧
    Ev.invoke (step_key sample_step) ∉
      (run_mcp_steps sample_env
        (run_mcp_steps sample_env exec_state0 0 [sample_step]).1 0 [sample_step]).2 :=
  ⟨(mcp_quarantine_claim sample_env exec_state_quarantined 0 []).2.1 sample_step 0
      (Or.inl (by decide)),
   (mcp_quarantine_claim sample_env exec_state0 0 [sample_step, sample_step]).2.2.1
      0 1 (step_key sample_step) (by decide) (by decide),
   (mcp_quarantine_claim sample_env exec_state0 0 [sample_step]).2.2.2
      sample_env [sample_step] 0 0 (step_key sample_step) (by decide)⟩

end Jelly
